import Mathlib

/-!
Verification development for the regtools `variants annotate` core
(src/src/variants/variants_annotator.cc).

Coordinates are modelled as `Int` (the C++ code works with 1-based genomic
coordinates well inside machine range, so exact integer arithmetic is the
intended semantics).  A BED exon interval carries `start`, `stop` (the
source's `end`, a Lean keyword) and the strand string of its parent
transcript.  The classification outcome is held, as in the source, on the
`AnnotatedVariant` record: the distance score (sentinel -1) and the label
string (the source stores the score as a string via `common::num_to_str`;
we keep the integer it denotes, the label strings are kept verbatim).
The field `annot` models the source field `annotation`.
-/

namespace Regtools

structure BED where
  start : Int
  stop : Int
  strand : String
deriving Repr, DecidableEq, Inhabited

structure AnnotatedVariant where
  chrom : String
  start : Int
  stop : Int
  score : Int
  annot : String
  cis_effect_start : Int
  cis_effect_end : Int
  overlapping_genes : String
  overlapping_transcripts : String
  overlapping_distances : String
deriving Repr, DecidableEq

/-- The per-run configuration fields of `VariantsAnnotator`
(`intronic_min_distance_`, `exonic_min_distance_`, `all_intronic_space_`,
`all_exonic_space_`, `skip_single_exon_genes_`). -/
structure Config where
  intronic_min_distance : Int
  exonic_min_distance : Int
  all_intronic_space : Bool
  all_exonic_space : Bool
  skip_single_exon_genes : Bool
deriving Repr, DecidableEq

/-- Defaults: `-i 2`, `-e 3`, both whole-space flags off, skip single exon on. -/
def defaultConfig : Config := ⟨2, 3, false, false, true⟩

def dummyBED : BED := ⟨0, 0, ""⟩

/-- Total access to `exons[i]`; every use below is guarded exactly as the
C++ indexing is, so the default is never reached on the caller contract. -/
def nth (exons : List BED) (i : Nat) : BED := exons.getD i dummyBED

/-- `VariantsAnnotator::set_variant_cis_effect_limits_ps`. -/
def set_variant_cis_effect_limits_ps (exons : List BED) (variant : AnnotatedVariant)
    (i : Nat) : AnnotatedVariant :=
  let variant1 :=
    if i ≠ 0 then
      if (nth exons (i-1)).start < variant.cis_effect_start then
        { variant with cis_effect_start := (nth exons (i-1)).start }
      else variant
    else
      if (nth exons 0).start < variant.cis_effect_start then
        { variant with cis_effect_start := (nth exons 0).start }
      else variant
  if i ≠ exons.length - 1 then
    if (nth exons (i+1)).stop > variant1.cis_effect_end then
      { variant1 with cis_effect_end := (nth exons (i+1)).stop }
    else variant1
  else
    if (nth exons (exons.length - 1)).stop > variant1.cis_effect_end then
      { variant1 with cis_effect_end := (nth exons (exons.length - 1)).stop }
    else variant1

/-- `VariantsAnnotator::set_variant_cis_effect_limits_ns`. -/
def set_variant_cis_effect_limits_ns (exons : List BED) (variant : AnnotatedVariant)
    (i : Nat) : AnnotatedVariant :=
  let variant1 :=
    if i ≠ 0 then
      if (nth exons (i-1)).stop > variant.cis_effect_end then
        { variant with cis_effect_end := (nth exons (i-1)).stop }
      else variant
    else
      if (nth exons 0).stop > variant.cis_effect_end then
        { variant with cis_effect_end := (nth exons 0).stop }
      else variant
  if i ≠ exons.length - 1 then
    if (nth exons (i+1)).start < variant1.cis_effect_start then
      { variant1 with cis_effect_start := (nth exons (i+1)).start }
    else variant1
  else
    if (nth exons (exons.length - 1)).start < variant1.cis_effect_start then
      { variant1 with cis_effect_start := (nth exons (exons.length - 1)).start }
    else variant1

/-- `VariantsAnnotator::set_variant_cis_effect_limits` (strand dispatch;
an unrecognized strand falls through without touching the record). -/
def set_variant_cis_effect_limits (exons : List BED) (variant : AnnotatedVariant)
    (i : Nat) : AnnotatedVariant :=
  if (nth exons 0).strand = "+" then
    set_variant_cis_effect_limits_ps exons variant i
  else if (nth exons 0).strand = "-" then
    set_variant_cis_effect_limits_ns exons variant i
  else variant

/-- The scan loop of `get_variant_overlaps_spliceregion_ps` (the `for` loop
over exon index `i`).  `fuel` is structural recursion fuel; the functions
below always supply `exons.length`, which is enough for the loop to run to
its natural end (when `i` reaches `exons.length` the C++ loop exits and the
current record is returned, which is also what fuel 0 returns). -/
def gvo_ps_go (cfg : Config) (exons : List BED) :
    Nat → AnnotatedVariant → Nat → AnnotatedVariant
  | 0, variant, _ => variant
  | fuel+1, variant, i =>
    if i < exons.length then
      if cfg.all_exonic_space = true ∧ variant.stop ≥ (nth exons i).start ∧
         variant.stop ≤ (nth exons i).stop then
        { variant with
          score := min (variant.stop - (nth exons i).start) ((nth exons i).stop - variant.stop),
          annot := "exonic" }
      else if cfg.all_intronic_space = true ∧ i ≠ exons.length - 1 ∧
              variant.stop > (nth exons i).stop ∧ variant.stop < (nth exons (i+1)).start then
        { variant with
          score := min (variant.stop - (nth exons i).stop) ((nth exons (i+1)).start - variant.stop),
          annot := "intronic" }
      else if (nth exons i).start - cfg.intronic_min_distance > variant.stop then
        variant
      else if i ≠ 0 ∧ variant.stop ≥ (nth exons i).start ∧ variant.stop ≤ (nth exons i).stop ∧
              variant.stop ≤ (nth exons i).start + cfg.exonic_min_distance then
        set_variant_cis_effect_limits exons
          { variant with
            score := min (variant.stop - (nth exons i).start) ((nth exons i).stop - variant.stop),
            annot := "splicing_exonic" } i
      else if variant.stop < (nth exons i).start ∧
              variant.stop ≥ (nth exons i).start - cfg.intronic_min_distance ∧
              i ≠ 0 ∧ variant.stop > (nth exons (i-1)).stop then
        set_variant_cis_effect_limits exons
          { variant with
            score := min (variant.stop - (nth exons (i-1)).stop) ((nth exons i).start - variant.stop),
            annot := "splicing_intronic" } i
      else if i ≠ exons.length - 1 ∧ variant.stop ≤ (nth exons i).stop ∧
              variant.stop ≥ (nth exons i).start ∧
              variant.stop ≥ (nth exons i).stop - cfg.exonic_min_distance then
        set_variant_cis_effect_limits exons
          { variant with
            score := min (variant.stop - (nth exons i).start) ((nth exons i).stop - variant.stop),
            annot := "splicing_exonic" } i
      else if variant.stop > (nth exons i).stop ∧
              variant.stop ≤ (nth exons i).stop + cfg.intronic_min_distance ∧
              i ≠ exons.length - 1 ∧ variant.stop < (nth exons (i+1)).start then
        set_variant_cis_effect_limits exons
          { variant with
            score := min (variant.stop - (nth exons i).stop) ((nth exons (i+1)).start - variant.stop),
            annot := "splicing_intronic" } i
      else
        gvo_ps_go cfg exons fuel variant (i+1)
    else variant

/-- `VariantsAnnotator::get_variant_overlaps_spliceregion_ps`. -/
def get_variant_overlaps_spliceregion_ps (cfg : Config) (exons : List BED)
    (variant : AnnotatedVariant) : AnnotatedVariant :=
  let variant := { variant with score := -1, annot := "non_splice_region" }
  if (nth exons 0).start > variant.stop ∨
     (nth exons (exons.length - 1)).stop < variant.stop then
    variant
  else
    gvo_ps_go cfg exons exons.length variant 0

/-- The scan loop of `get_variant_overlaps_spliceregion_ns`. -/
def gvo_ns_go (cfg : Config) (exons : List BED) :
    Nat → AnnotatedVariant → Nat → AnnotatedVariant
  | 0, variant, _ => variant
  | fuel+1, variant, i =>
    if i < exons.length then
      if cfg.all_exonic_space = true ∧ variant.stop ≥ (nth exons i).start ∧
         variant.stop ≤ (nth exons i).stop then
        { variant with
          score := min (variant.stop - (nth exons i).start) ((nth exons i).stop - variant.stop),
          annot := "exonic" }
      else if cfg.all_intronic_space = true ∧ i ≠ exons.length - 1 ∧
              variant.stop < (nth exons i).start ∧ variant.stop > (nth exons (i+1)).stop then
        { variant with
          score := min (variant.stop - (nth exons (i+1)).stop) ((nth exons i).start - variant.stop),
          annot := "intronic" }
      else if (nth exons i).stop + cfg.intronic_min_distance < variant.stop then
        variant
      else if i ≠ exons.length - 1 ∧ variant.stop ≥ (nth exons i).start ∧
              variant.stop ≤ (nth exons i).stop ∧
              variant.stop ≤ (nth exons i).start + cfg.exonic_min_distance then
        set_variant_cis_effect_limits exons
          { variant with
            score := min (variant.stop - (nth exons i).start) ((nth exons i).stop - variant.stop),
            annot := "splicing_exonic" } i
      else if variant.stop < (nth exons i).start ∧
              variant.stop ≥ (nth exons i).start - cfg.intronic_min_distance ∧
              i ≠ exons.length - 1 ∧ variant.stop > (nth exons (i+1)).stop then
        set_variant_cis_effect_limits exons
          { variant with
            score := min (variant.stop - (nth exons (i+1)).stop) ((nth exons i).start - variant.stop),
            annot := "splicing_intronic" } i
      else if i ≠ 0 ∧ variant.stop ≤ (nth exons i).stop ∧
              variant.stop ≥ (nth exons i).start ∧
              variant.stop ≥ (nth exons i).stop - cfg.exonic_min_distance then
        set_variant_cis_effect_limits exons
          { variant with
            score := min (variant.stop - (nth exons i).start) ((nth exons i).stop - variant.stop),
            annot := "splicing_exonic" } i
      else if variant.stop > (nth exons i).stop ∧
              variant.stop ≤ (nth exons i).stop + cfg.intronic_min_distance ∧
              i ≠ 0 ∧ variant.stop < (nth exons (i-1)).start then
        set_variant_cis_effect_limits exons
          { variant with
            score := min (variant.stop - (nth exons i).stop) ((nth exons (i-1)).start - variant.stop),
            annot := "splicing_intronic" } i
      else
        gvo_ns_go cfg exons fuel variant (i+1)
    else variant

/-- `VariantsAnnotator::get_variant_overlaps_spliceregion_ns`. -/
def get_variant_overlaps_spliceregion_ns (cfg : Config) (exons : List BED)
    (variant : AnnotatedVariant) : AnnotatedVariant :=
  let variant := { variant with score := -1, annot := "non_splice_region" }
  if (nth exons (exons.length - 1)).start > variant.stop ∨
     (nth exons 0).stop < variant.stop then
    variant
  else
    gvo_ns_go cfg exons exons.length variant 0

/-- Spec-side comparison loop for the refinement claim about early
termination: identical to `gvo_ps_go` except that the early-termination
return (`exons[i].start - intronic_min_distance_ > variant.end`) is
removed, so the scan always visits every exon. -/
def gvo_ps_go_noet (cfg : Config) (exons : List BED) :
    Nat → AnnotatedVariant → Nat → AnnotatedVariant
  | 0, variant, _ => variant
  | fuel+1, variant, i =>
    if i < exons.length then
      if cfg.all_exonic_space = true ∧ variant.stop ≥ (nth exons i).start ∧
         variant.stop ≤ (nth exons i).stop then
        { variant with
          score := min (variant.stop - (nth exons i).start) ((nth exons i).stop - variant.stop),
          annot := "exonic" }
      else if cfg.all_intronic_space = true ∧ i ≠ exons.length - 1 ∧
              variant.stop > (nth exons i).stop ∧ variant.stop < (nth exons (i+1)).start then
        { variant with
          score := min (variant.stop - (nth exons i).stop) ((nth exons (i+1)).start - variant.stop),
          annot := "intronic" }
      else if i ≠ 0 ∧ variant.stop ≥ (nth exons i).start ∧ variant.stop ≤ (nth exons i).stop ∧
              variant.stop ≤ (nth exons i).start + cfg.exonic_min_distance then
        set_variant_cis_effect_limits exons
          { variant with
            score := min (variant.stop - (nth exons i).start) ((nth exons i).stop - variant.stop),
            annot := "splicing_exonic" } i
      else if variant.stop < (nth exons i).start ∧
              variant.stop ≥ (nth exons i).start - cfg.intronic_min_distance ∧
              i ≠ 0 ∧ variant.stop > (nth exons (i-1)).stop then
        set_variant_cis_effect_limits exons
          { variant with
            score := min (variant.stop - (nth exons (i-1)).stop) ((nth exons i).start - variant.stop),
            annot := "splicing_intronic" } i
      else if i ≠ exons.length - 1 ∧ variant.stop ≤ (nth exons i).stop ∧
              variant.stop ≥ (nth exons i).start ∧
              variant.stop ≥ (nth exons i).stop - cfg.exonic_min_distance then
        set_variant_cis_effect_limits exons
          { variant with
            score := min (variant.stop - (nth exons i).start) ((nth exons i).stop - variant.stop),
            annot := "splicing_exonic" } i
      else if variant.stop > (nth exons i).stop ∧
              variant.stop ≤ (nth exons i).stop + cfg.intronic_min_distance ∧
              i ≠ exons.length - 1 ∧ variant.stop < (nth exons (i+1)).start then
        set_variant_cis_effect_limits exons
          { variant with
            score := min (variant.stop - (nth exons i).stop) ((nth exons (i+1)).start - variant.stop),
            annot := "splicing_intronic" } i
      else
        gvo_ps_go_noet cfg exons fuel variant (i+1)
    else variant

/-- `get_variant_overlaps_spliceregion_ps` with the early-termination
shortcut removed from the scan. -/
def get_variant_overlaps_spliceregion_ps_noet (cfg : Config) (exons : List BED)
    (variant : AnnotatedVariant) : AnnotatedVariant :=
  let variant := { variant with score := -1, annot := "non_splice_region" }
  if (nth exons 0).start > variant.stop ∨
     (nth exons (exons.length - 1)).stop < variant.stop then
    variant
  else
    gvo_ps_go_noet cfg exons exons.length variant 0

/-- `gvo_ns_go` with the early-termination return
(`exons[i].end + intronic_min_distance_ < variant.end`) removed. -/
def gvo_ns_go_noet (cfg : Config) (exons : List BED) :
    Nat → AnnotatedVariant → Nat → AnnotatedVariant
  | 0, variant, _ => variant
  | fuel+1, variant, i =>
    if i < exons.length then
      if cfg.all_exonic_space = true ∧ variant.stop ≥ (nth exons i).start ∧
         variant.stop ≤ (nth exons i).stop then
        { variant with
          score := min (variant.stop - (nth exons i).start) ((nth exons i).stop - variant.stop),
          annot := "exonic" }
      else if cfg.all_intronic_space = true ∧ i ≠ exons.length - 1 ∧
              variant.stop < (nth exons i).start ∧ variant.stop > (nth exons (i+1)).stop then
        { variant with
          score := min (variant.stop - (nth exons (i+1)).stop) ((nth exons i).start - variant.stop),
          annot := "intronic" }
      else if i ≠ exons.length - 1 ∧ variant.stop ≥ (nth exons i).start ∧
              variant.stop ≤ (nth exons i).stop ∧
              variant.stop ≤ (nth exons i).start + cfg.exonic_min_distance then
        set_variant_cis_effect_limits exons
          { variant with
            score := min (variant.stop - (nth exons i).start) ((nth exons i).stop - variant.stop),
            annot := "splicing_exonic" } i
      else if variant.stop < (nth exons i).start ∧
              variant.stop ≥ (nth exons i).start - cfg.intronic_min_distance ∧
              i ≠ exons.length - 1 ∧ variant.stop > (nth exons (i+1)).stop then
        set_variant_cis_effect_limits exons
          { variant with
            score := min (variant.stop - (nth exons (i+1)).stop) ((nth exons i).start - variant.stop),
            annot := "splicing_intronic" } i
      else if i ≠ 0 ∧ variant.stop ≤ (nth exons i).stop ∧
              variant.stop ≥ (nth exons i).start ∧
              variant.stop ≥ (nth exons i).stop - cfg.exonic_min_distance then
        set_variant_cis_effect_limits exons
          { variant with
            score := min (variant.stop - (nth exons i).start) ((nth exons i).stop - variant.stop),
            annot := "splicing_exonic" } i
      else if variant.stop > (nth exons i).stop ∧
              variant.stop ≤ (nth exons i).stop + cfg.intronic_min_distance ∧
              i ≠ 0 ∧ variant.stop < (nth exons (i-1)).start then
        set_variant_cis_effect_limits exons
          { variant with
            score := min (variant.stop - (nth exons i).stop) ((nth exons (i-1)).start - variant.stop),
            annot := "splicing_intronic" } i
      else
        gvo_ns_go_noet cfg exons fuel variant (i+1)
    else variant

/-- `get_variant_overlaps_spliceregion_ns` with the early-termination
shortcut removed from the scan. -/
def get_variant_overlaps_spliceregion_ns_noet (cfg : Config) (exons : List BED)
    (variant : AnnotatedVariant) : AnnotatedVariant :=
  let variant := { variant with score := -1, annot := "non_splice_region" }
  if (nth exons (exons.length - 1)).start > variant.stop ∨
     (nth exons 0).stop < variant.stop then
    variant
  else
    gvo_ns_go_noet cfg exons exons.length variant 0

/-- The error kinds of §7: strand dispatch failure and empty exon list
(both `throw runtime_error` in the source). -/
inductive AnnotError where
  | UnknownStrand (strand : String)
  | MissingExons (transcript_id : String)
deriving Repr, DecidableEq

/-- `VariantsAnnotator::get_variant_overlaps_spliceregion` (strand dispatch). -/
def get_variant_overlaps_spliceregion (cfg : Config) (exons : List BED)
    (variant : AnnotatedVariant) : Except AnnotError AnnotatedVariant :=
  if (nth exons 0).strand = "+" then
    .ok (get_variant_overlaps_spliceregion_ps cfg exons variant)
  else if (nth exons 0).strand = "-" then
    .ok (get_variant_overlaps_spliceregion_ns cfg exons variant)
  else
    .error (.UnknownStrand (nth exons 0).strand)

/-- A candidate transcript as the aggregator sees it: its identifier, its
owning gene (`gtf_.get_gene_from_transcript`) and its exon list
(`gtf_.get_exons_from_transcript`, ascending for `+`, transcript order
for `-`). -/
structure Transcript where
  id : String
  gene : String
  exons : List BED
deriving Repr, DecidableEq

/-- The mutable locals of `annotate_record_with_transcripts` together with
the `AnnotatedVariant` that is threaded through every classifier call. -/
structure AggState where
  overlapping_genes : String
  overlapping_transcripts : String
  overlapping_distances : String
  annots : String
  unique_genes : List String
  variant : AnnotatedVariant
deriving Repr, DecidableEq

/-- The body of the innermost loop of `annotate_record_with_transcripts`
for one candidate transcript: the `MissingExons` check, the single-exon
skip, the classifier call, and the list-accumulation step (gene dedup via
the `unique_genes` set, transcript/distance/label appended in encounter
order). -/
def annotate_one (cfg : Config) (st : AggState) (t : Transcript) :
    Except AnnotError AggState :=
  if t.exons.length = 0 then
    .error (.MissingExons t.id)
  else if cfg.skip_single_exon_genes = true ∧ t.exons.length = 1 then
    .ok st
  else
    match get_variant_overlaps_spliceregion cfg t.exons st.variant with
    | .error e => .error e
    | .ok v =>
      if v.annot ≠ "non_splice_region" then
        let gene_id := t.gene
        let dist_str := toString v.score
        if st.overlapping_transcripts ≠ "NA" then
          .ok { overlapping_genes :=
                  if gene_id ∈ st.unique_genes then st.overlapping_genes
                  else st.overlapping_genes ++ "," ++ gene_id,
                overlapping_transcripts := st.overlapping_transcripts ++ "," ++ t.id,
                overlapping_distances := st.overlapping_distances ++ "," ++ dist_str,
                annots := st.annots ++ "," ++ v.annot,
                unique_genes :=
                  if gene_id ∈ st.unique_genes then st.unique_genes
                  else gene_id :: st.unique_genes,
                variant := v }
        else
          .ok { overlapping_genes := gene_id,
                overlapping_transcripts := t.id,
                overlapping_distances := dist_str,
                annots := v.annot,
                unique_genes :=
                  if gene_id ∈ st.unique_genes then st.unique_genes
                  else gene_id :: st.unique_genes,
                variant := v }
      else
        .ok { st with variant := v }

/-- The traversal of `annotate_record_with_transcripts` over the candidate
transcripts, in the encounter order produced by the bin walk.  A thrown
error aborts the whole traversal, as the C++ exception does. -/
def annotate_loop (cfg : Config) : List Transcript → AggState → Except AnnotError AggState
  | [], st => .ok st
  | t :: ts, st =>
    match annotate_one cfg st t with
    | .error e => .error e
    | .ok st' => annotate_loop cfg ts st'

def init_state (variant : AnnotatedVariant) : AggState :=
  ⟨"NA", "NA", "NA", "NA", [], variant⟩

/-- `VariantsAnnotator::annotate_record_with_transcripts`, abstracted over
the encounter-ordered candidate transcript sequence that the bin walk and
`gtf_.transcripts_from_bin` produce (the bin walk itself is I/O-free index
arithmetic which does not affect these claims). -/
def annotate_record_with_transcripts (cfg : Config) (transcripts : List Transcript)
    (variant : AnnotatedVariant) : Except AnnotError AnnotatedVariant :=
  match annotate_loop cfg transcripts (init_state variant) with
  | .error e => .error e
  | .ok st =>
    .ok { st.variant with
          annot := st.annots,
          overlapping_genes := st.overlapping_genes,
          overlapping_transcripts := st.overlapping_transcripts,
          overlapping_distances := st.overlapping_distances }

/-- Modelled from the spec: the `AnnotatedVariant` constructor used at
line 440 (`AnnotatedVariant(chr, pos, pos+1)`) is declared in
`variants_annotator.h`, which is not part of the sources; per §3 the
working coordinate is the 0-based input position plus one and the
cis-effect window is initialized to the variant's own coordinates. -/
def mkAnnotatedVariant (chrom : String) (pos : Int) : AnnotatedVariant :=
  ⟨chrom, pos, pos + 1, -1, "non_splice_region", pos, pos + 1, "NA", "NA", "NA"⟩

/-- Comma-joined list with the `NA` sentinel for the empty case (§3 output
format of the accumulated per-variant lists). -/
def joinComma : List String → String
  | [] => "NA"
  | x :: xs => xs.foldl (fun a b => a ++ "," ++ b) x

/-- Exon list sorted ascending by genomic start coordinate. -/
def sortedAscStart (exons : List BED) : Prop :=
  List.Pairwise (fun a b => a.start ≤ b.start) exons

/-- Exon list sorted descending by genomic end coordinate (the transcript
order in which a `-`-strand transcript's exons reach the classifier). -/
def sortedDescStop (exons : List BED) : Prop :=
  List.Pairwise (fun a b => b.stop ≤ a.stop) exons

/-- Every exon is a genomic interval: start ≤ end (§3 data model). -/
def wfExons (exons : List BED) : Prop := ∀ e ∈ exons, e.start ≤ e.stop

/-- Reflection of one exon interval about the coordinate `pivot`; the
mirrored exon belongs to the `-` strand copy of the transcript. -/
def reflectBED (pivot : Int) (e : BED) : BED := ⟨pivot - e.stop, pivot - e.start, "-"⟩

/-- The reflection pivot: exon coordinates are reflected about the
transcript midpoint, i.e. `x ↦ pivot - x` with
`pivot = first exon start + last exon end`. -/
def mirrorPivot (exons : List BED) : Int :=
  (nth exons 0).start + (nth exons (exons.length - 1)).stop

/-- The classifier outcome of one candidate transcript against a fresh
variant record (the label and score only depend on the working coordinate,
so this also describes what the aggregator sees mid-fold). -/
def classifyT (cfg : Config) (v0 : AnnotatedVariant) (t : Transcript) : AnnotatedVariant :=
  match get_variant_overlaps_spliceregion cfg t.exons v0 with
  | .ok r => r
  | .error _ => v0

/-- A candidate transcript that the aggregator fully processes and finds
splice-relevant: it belongs to gene `g`, carries a usable identifier, a
non-empty exon list, is not excluded by the single-exon skip, has a
recognized strand, and classifies as something other than
`non_splice_region`. -/
def goodT (cfg : Config) (g : String) (v0 : AnnotatedVariant) (t : Transcript) : Prop :=
  t.gene = g ∧ t.id ≠ "NA" ∧ t.exons ≠ [] ∧
  ¬(cfg.skip_single_exon_genes = true ∧ t.exons.length = 1) ∧
  ((nth t.exons 0).strand = "+" ∨ (nth t.exons 0).strand = "-") ∧
  (classifyT cfg v0 t).annot ≠ "non_splice_region"

instance (l : List BED) : Decidable (sortedAscStart l) := by
  unfold sortedAscStart; infer_instance

instance (l : List BED) : Decidable (sortedDescStop l) := by
  unfold sortedDescStop; infer_instance

instance (l : List BED) : Decidable (wfExons l) := by
  unfold wfExons; infer_instance

instance (cfg : Config) (g : String) (v0 : AnnotatedVariant) (t : Transcript) :
    Decidable (goodT cfg g v0 t) := by
  unfold goodT; infer_instance

end Regtools

namespace Regtools

/-! ### Access and order helper lemmas -/

theorem nth_eq {l : List BED} {i : Nat} (h : i < l.length) : nth l i = l.get ⟨i, h⟩ := by
  simp [nth, List.getD_eq_getElem?_getD, List.getElem?_eq_getElem h]

theorem nth_map {f : BED → BED} {l : List BED} {i : Nat} (h : i < l.length) :
    nth (l.map f) i = f (nth l i) := by
  have h' : i < (l.map f).length := by simpa using h
  rw [nth_eq h', nth_eq h]
  simp

theorem nth_mem {l : List BED} {i : Nat} (h : i < l.length) : nth l i ∈ l := by
  rw [nth_eq h]; exact List.get_mem l _ _

theorem sortedAscStart_nth {l : List BED} (hs : sortedAscStart l) {i j : Nat}
    (hij : i ≤ j) (hj : j < l.length) : (nth l i).start ≤ (nth l j).start := by
  rcases Nat.lt_or_ge i j with hlt | hge
  · have hi : i < l.length := lt_trans hlt hj
    rw [nth_eq hi, nth_eq hj]
    exact (List.pairwise_iff_get.mp hs) ⟨i, hi⟩ ⟨j, hj⟩ hlt
  · have : i = j := le_antisymm hij hge
    subst this
    exact le_refl _

theorem sortedDescStop_nth {l : List BED} (hs : sortedDescStop l) {i j : Nat}
    (hij : i ≤ j) (hj : j < l.length) : (nth l j).stop ≤ (nth l i).stop := by
  rcases Nat.lt_or_ge i j with hlt | hge
  · have hi : i < l.length := lt_trans hlt hj
    rw [nth_eq hi, nth_eq hj]
    exact (List.pairwise_iff_get.mp hs) ⟨i, hi⟩ ⟨j, hj⟩ hlt
  · have : i = j := le_antisymm hij hge
    subst this
    exact le_refl _

theorem wfExons_nth {l : List BED} (hw : wfExons l) {i : Nat} (h : i < l.length) :
    (nth l i).start ≤ (nth l i).stop :=
  hw _ (nth_mem h)

/-! ### Field preservation of the cis-effect limit calculator -/

theorem set_cis_ps_fields (exons : List BED) (v : AnnotatedVariant) (i : Nat) :
    (set_variant_cis_effect_limits_ps exons v i).annot = v.annot ∧
    (set_variant_cis_effect_limits_ps exons v i).score = v.score ∧
    (set_variant_cis_effect_limits_ps exons v i).stop = v.stop ∧
    (set_variant_cis_effect_limits_ps exons v i).cis_effect_start ≤ v.cis_effect_start ∧
    v.cis_effect_end ≤ (set_variant_cis_effect_limits_ps exons v i).cis_effect_end := by
  unfold set_variant_cis_effect_limits_ps
  dsimp only
  split_ifs <;> simp_all <;> omega

theorem set_cis_ns_fields (exons : List BED) (v : AnnotatedVariant) (i : Nat) :
    (set_variant_cis_effect_limits_ns exons v i).annot = v.annot ∧
    (set_variant_cis_effect_limits_ns exons v i).score = v.score ∧
    (set_variant_cis_effect_limits_ns exons v i).stop = v.stop ∧
    (set_variant_cis_effect_limits_ns exons v i).cis_effect_start ≤ v.cis_effect_start ∧
    v.cis_effect_end ≤ (set_variant_cis_effect_limits_ns exons v i).cis_effect_end := by
  unfold set_variant_cis_effect_limits_ns
  dsimp only
  split_ifs <;> simp_all <;> omega

theorem set_cis_fields (exons : List BED) (v : AnnotatedVariant) (i : Nat) :
    (set_variant_cis_effect_limits exons v i).annot = v.annot ∧
    (set_variant_cis_effect_limits exons v i).score = v.score ∧
    (set_variant_cis_effect_limits exons v i).stop = v.stop ∧
    (set_variant_cis_effect_limits exons v i).cis_effect_start ≤ v.cis_effect_start ∧
    v.cis_effect_end ≤ (set_variant_cis_effect_limits exons v i).cis_effect_end := by
  unfold set_variant_cis_effect_limits
  split_ifs
  · exact set_cis_ps_fields exons v i
  · exact set_cis_ns_fields exons v i
  · exact ⟨rfl, rfl, rfl, le_refl _, le_refl _⟩

theorem set_cis_annot (exons : List BED) (v : AnnotatedVariant) (i : Nat) :
    (set_variant_cis_effect_limits exons v i).annot = v.annot :=
  (set_cis_fields exons v i).1

theorem set_cis_score (exons : List BED) (v : AnnotatedVariant) (i : Nat) :
    (set_variant_cis_effect_limits exons v i).score = v.score :=
  (set_cis_fields exons v i).2.1

theorem set_cis_stop (exons : List BED) (v : AnnotatedVariant) (i : Nat) :
    (set_variant_cis_effect_limits exons v i).stop = v.stop :=
  (set_cis_fields exons v i).2.2.1

/-! ### Classifier scan: congruence in the carried record

The scan reads only the working coordinate `stop` of the carried record
(besides the exon list and the configuration); the label and score it
produces do not depend on the record's other fields, and `stop` itself is
never written. -/

theorem gvo_ps_go_congr (cfg : Config) (exons : List BED) :
    ∀ fuel i (v w : AnnotatedVariant), v.stop = w.stop → v.score = w.score → v.annot = w.annot →
      (gvo_ps_go cfg exons fuel v i).stop = v.stop ∧
      (gvo_ps_go cfg exons fuel v i).annot = (gvo_ps_go cfg exons fuel w i).annot ∧
      (gvo_ps_go cfg exons fuel v i).score = (gvo_ps_go cfg exons fuel w i).score := by
  intro fuel
  induction fuel with
  | zero => intro i v w hstop hsc han; exact ⟨rfl, han.symm ▸ rfl, hsc.symm ▸ rfl⟩
  | succ fuel ih =>
    intro i v w hstop hsc han
    simp only [gvo_ps_go]
    rw [← hstop]
    split_ifs <;>
      first
      | exact ih (i+1) v w hstop hsc han
      | exact ⟨rfl, han, hsc⟩
      | exact ⟨rfl, rfl, rfl⟩
      | exact ⟨set_cis_stop _ _ _, by rw [set_cis_annot, set_cis_annot],
               by rw [set_cis_score, set_cis_score]⟩

theorem gvo_ns_go_congr (cfg : Config) (exons : List BED) :
    ∀ fuel i (v w : AnnotatedVariant), v.stop = w.stop → v.score = w.score → v.annot = w.annot →
      (gvo_ns_go cfg exons fuel v i).stop = v.stop ∧
      (gvo_ns_go cfg exons fuel v i).annot = (gvo_ns_go cfg exons fuel w i).annot ∧
      (gvo_ns_go cfg exons fuel v i).score = (gvo_ns_go cfg exons fuel w i).score := by
  intro fuel
  induction fuel with
  | zero => intro i v w hstop hsc han; exact ⟨rfl, han.symm ▸ rfl, hsc.symm ▸ rfl⟩
  | succ fuel ih =>
    intro i v w hstop hsc han
    simp only [gvo_ns_go]
    rw [← hstop]
    split_ifs <;>
      first
      | exact ih (i+1) v w hstop hsc han
      | exact ⟨rfl, han, hsc⟩
      | exact ⟨rfl, rfl, rfl⟩
      | exact ⟨set_cis_stop _ _ _, by rw [set_cis_annot, set_cis_annot],
               by rw [set_cis_score, set_cis_score]⟩

/-! ### Classifier scan: the cis-effect window only widens -/

theorem gvo_ps_go_cis_widen (cfg : Config) (exons : List BED) :
    ∀ fuel i (v : AnnotatedVariant),
      (gvo_ps_go cfg exons fuel v i).cis_effect_start ≤ v.cis_effect_start ∧
      v.cis_effect_end ≤ (gvo_ps_go cfg exons fuel v i).cis_effect_end := by
  intro fuel
  induction fuel with
  | zero => intro i v; exact ⟨le_refl _, le_refl _⟩
  | succ fuel ih =>
    intro i v
    simp only [gvo_ps_go]
    split_ifs <;>
      first
      | exact ih (i+1) v
      | exact ⟨le_refl _, le_refl _⟩
      | exact ⟨(set_cis_fields _ _ _).2.2.2.1, (set_cis_fields _ _ _).2.2.2.2⟩

theorem gvo_ns_go_cis_widen (cfg : Config) (exons : List BED) :
    ∀ fuel i (v : AnnotatedVariant),
      (gvo_ns_go cfg exons fuel v i).cis_effect_start ≤ v.cis_effect_start ∧
      v.cis_effect_end ≤ (gvo_ns_go cfg exons fuel v i).cis_effect_end := by
  intro fuel
  induction fuel with
  | zero => intro i v; exact ⟨le_refl _, le_refl _⟩
  | succ fuel ih =>
    intro i v
    simp only [gvo_ns_go]
    split_ifs <;>
      first
      | exact ih (i+1) v
      | exact ⟨le_refl _, le_refl _⟩
      | exact ⟨(set_cis_fields _ _ _).2.2.2.1, (set_cis_fields _ _ _).2.2.2.2⟩

end Regtools

namespace Regtools

/-! ### Full-classifier corollaries -/

theorem gvo_ps_stop (cfg : Config) (exons : List BED) (v : AnnotatedVariant) :
    (get_variant_overlaps_spliceregion_ps cfg exons v).stop = v.stop := by
  unfold get_variant_overlaps_spliceregion_ps
  dsimp only
  split_ifs
  · rfl
  · exact (gvo_ps_go_congr cfg exons exons.length 0 _ _ rfl rfl rfl).1

theorem gvo_ns_stop (cfg : Config) (exons : List BED) (v : AnnotatedVariant) :
    (get_variant_overlaps_spliceregion_ns cfg exons v).stop = v.stop := by
  unfold get_variant_overlaps_spliceregion_ns
  dsimp only
  split_ifs
  · rfl
  · exact (gvo_ns_go_congr cfg exons exons.length 0 _ _ rfl rfl rfl).1

theorem gvo_ps_outcome_of_stop (cfg : Config) (exons : List BED)
    {v w : AnnotatedVariant} (hstop : v.stop = w.stop) :
    (get_variant_overlaps_spliceregion_ps cfg exons v).annot =
      (get_variant_overlaps_spliceregion_ps cfg exons w).annot ∧
    (get_variant_overlaps_spliceregion_ps cfg exons v).score =
      (get_variant_overlaps_spliceregion_ps cfg exons w).score := by
  have h1 := gvo_ps_go_congr cfg exons exons.length 0
      { v with score := -1, annot := "non_splice_region" }
      { w with score := -1, annot := "non_splice_region" } hstop rfl rfl
  unfold get_variant_overlaps_spliceregion_ps
  dsimp only
  by_cases hc : (nth exons 0).start > v.stop ∨ (nth exons (exons.length - 1)).stop < v.stop
  · rw [if_pos hc, if_pos (hstop ▸ hc)]
    exact ⟨rfl, rfl⟩
  · rw [if_neg hc, if_neg (by rw [← hstop]; exact hc)]
    exact ⟨h1.2.1, h1.2.2⟩

theorem gvo_ns_outcome_of_stop (cfg : Config) (exons : List BED)
    {v w : AnnotatedVariant} (hstop : v.stop = w.stop) :
    (get_variant_overlaps_spliceregion_ns cfg exons v).annot =
      (get_variant_overlaps_spliceregion_ns cfg exons w).annot ∧
    (get_variant_overlaps_spliceregion_ns cfg exons v).score =
      (get_variant_overlaps_spliceregion_ns cfg exons w).score := by
  have h1 := gvo_ns_go_congr cfg exons exons.length 0
      { v with score := -1, annot := "non_splice_region" }
      { w with score := -1, annot := "non_splice_region" } hstop rfl rfl
  unfold get_variant_overlaps_spliceregion_ns
  dsimp only
  by_cases hc : (nth exons (exons.length - 1)).start > v.stop ∨ (nth exons 0).stop < v.stop
  · rw [if_pos hc, if_pos (hstop ▸ hc)]
    exact ⟨rfl, rfl⟩
  · rw [if_neg hc, if_neg (by rw [← hstop]; exact hc)]
    exact ⟨h1.2.1, h1.2.2⟩

theorem gvo_ps_cis_widen (cfg : Config) (exons : List BED) (v : AnnotatedVariant) :
    (get_variant_overlaps_spliceregion_ps cfg exons v).cis_effect_start ≤ v.cis_effect_start ∧
    v.cis_effect_end ≤ (get_variant_overlaps_spliceregion_ps cfg exons v).cis_effect_end := by
  unfold get_variant_overlaps_spliceregion_ps
  dsimp only
  split_ifs
  · exact ⟨le_refl _, le_refl _⟩
  · exact gvo_ps_go_cis_widen cfg exons exons.length 0 _

theorem gvo_ns_cis_widen (cfg : Config) (exons : List BED) (v : AnnotatedVariant) :
    (get_variant_overlaps_spliceregion_ns cfg exons v).cis_effect_start ≤ v.cis_effect_start ∧
    v.cis_effect_end ≤ (get_variant_overlaps_spliceregion_ns cfg exons v).cis_effect_end := by
  unfold get_variant_overlaps_spliceregion_ns
  dsimp only
  split_ifs
  · exact ⟨le_refl _, le_refl _⟩
  · exact gvo_ns_go_cis_widen cfg exons exons.length 0 _

theorem gvos_ok_stop (cfg : Config) (exons : List BED) {v r : AnnotatedVariant}
    (h : get_variant_overlaps_spliceregion cfg exons v = .ok r) : r.stop = v.stop := by
  unfold get_variant_overlaps_spliceregion at h
  split_ifs at h <;> simp only [Except.ok.injEq] at h
  · exact h ▸ gvo_ps_stop cfg exons v
  · exact h ▸ gvo_ns_stop cfg exons v

theorem gvos_ok_cis_widen (cfg : Config) (exons : List BED) {v r : AnnotatedVariant}
    (h : get_variant_overlaps_spliceregion cfg exons v = .ok r) :
    r.cis_effect_start ≤ v.cis_effect_start ∧ v.cis_effect_end ≤ r.cis_effect_end := by
  unfold get_variant_overlaps_spliceregion at h
  split_ifs at h <;> simp only [Except.ok.injEq] at h
  · exact h ▸ gvo_ps_cis_widen cfg exons v
  · exact h ▸ gvo_ns_cis_widen cfg exons v

/-! ### Mirror simulation: the `-`-strand scan on the reflected exon list
tracks the `+`-strand scan step by step -/

/-- Outcome projections through the cis-limit calculator. -/
theorem set_cis_outcome_eq {E1 E2 : List BED} {x y : AnnotatedVariant} {i j : Nat}
    (hA : x.annot = y.annot) (hS : x.score = y.score) :
    (set_variant_cis_effect_limits E1 x i).annot =
      (set_variant_cis_effect_limits E2 y j).annot ∧
    (set_variant_cis_effect_limits E1 x i).score =
      (set_variant_cis_effect_limits E2 y j).score := by
  rw [set_cis_annot, set_cis_annot, set_cis_score, set_cis_score]
  exact ⟨hA, hS⟩

set_option maxHeartbeats 1600000 in
theorem mirror_go (cfg : Config) (exons : List BED) (L : Int) (hwf : wfExons exons) :
    ∀ fuel i (v w : AnnotatedVariant), w.stop = L - v.stop → w.score = v.score →
      w.annot = v.annot →
      (gvo_ns_go cfg (exons.map (reflectBED L)) fuel w i).annot =
        (gvo_ps_go cfg exons fuel v i).annot ∧
      (gvo_ns_go cfg (exons.map (reflectBED L)) fuel w i).score =
        (gvo_ps_go cfg exons fuel v i).score := by
  intro fuel
  induction fuel with
  | zero => intro i v w hw hs ha; exact ⟨ha, hs⟩
  | succ fuel ih =>
    intro i v w hw hs ha
    simp only [gvo_ns_go, gvo_ps_go, List.length_map]
    by_cases hi : i < exons.length
    case neg => rw [if_neg hi, if_neg hi]; exact ⟨ha, hs⟩
    case pos =>
    rw [if_pos hi, if_pos hi]
    have him : i - 1 < exons.length := by omega
    have hwfi := wfExons_nth hwf hi
    rw [nth_map hi, nth_map him]
    simp only [reflectBED]
    by_cases hp1 : cfg.all_exonic_space = true ∧ v.stop ≥ (nth exons i).start ∧
        v.stop ≤ (nth exons i).stop
    · rw [if_pos hp1,
          if_pos (show cfg.all_exonic_space = true ∧ w.stop ≥ L - (nth exons i).stop ∧
            w.stop ≤ L - (nth exons i).start from ⟨hp1.1, by omega, by omega⟩)]
      exact ⟨rfl, by dsimp only; omega⟩
    · rw [if_neg hp1,
          if_neg (show ¬(cfg.all_exonic_space = true ∧ w.stop ≥ L - (nth exons i).stop ∧
            w.stop ≤ L - (nth exons i).start) from fun hN => hp1 ⟨hN.1, by omega, by omega⟩)]
      by_cases hlast : i = exons.length - 1
      · -- last exon in ascending order: every branch guarded by i ≠ length-1 is dead
        rw [if_neg (show ¬(cfg.all_intronic_space = true ∧ i ≠ exons.length - 1 ∧
              v.stop > (nth exons i).stop ∧ v.stop < (nth exons (i+1)).start)
              from fun hP => hP.2.1 hlast),
            if_neg (show ¬(cfg.all_intronic_space = true ∧ i ≠ exons.length - 1 ∧
              w.stop < L - (nth exons i).stop ∧
              w.stop > (nth (List.map (reflectBED L) exons) (i+1)).stop)
              from fun hN => hN.2.1 hlast)]
        by_cases hp3 : (nth exons i).start - cfg.intronic_min_distance > v.stop
        · rw [if_pos hp3,
              if_pos (show L - (nth exons i).start + cfg.intronic_min_distance < w.stop
                from by omega)]
          exact ⟨ha, hs⟩
        · rw [if_neg hp3,
              if_neg (show ¬(L - (nth exons i).start + cfg.intronic_min_distance < w.stop)
                from by omega)]
          rw [if_neg (show ¬(i ≠ exons.length - 1 ∧ w.stop ≥ L - (nth exons i).stop ∧
                w.stop ≤ L - (nth exons i).start ∧
                w.stop ≤ L - (nth exons i).stop + cfg.exonic_min_distance)
                from fun hN => hN.1 hlast),
              if_neg (show ¬(w.stop < L - (nth exons i).stop ∧
                w.stop ≥ L - (nth exons i).stop - cfg.intronic_min_distance ∧
                i ≠ exons.length - 1 ∧
                w.stop > (nth (List.map (reflectBED L) exons) (i+1)).stop)
                from fun hN => hN.2.2.1 hlast)]
          by_cases hp4 : i ≠ 0 ∧ v.stop ≥ (nth exons i).start ∧ v.stop ≤ (nth exons i).stop ∧
              v.stop ≤ (nth exons i).start + cfg.exonic_min_distance
          · rw [if_pos hp4,
                if_pos (show i ≠ 0 ∧ w.stop ≤ L - (nth exons i).start ∧
                  w.stop ≥ L - (nth exons i).stop ∧
                  w.stop ≥ L - (nth exons i).start - cfg.exonic_min_distance
                  from ⟨hp4.1, by omega, by omega, by omega⟩)]
            exact set_cis_outcome_eq rfl (by dsimp only; omega)
          · rw [if_neg hp4,
                if_neg (show ¬(i ≠ 0 ∧ w.stop ≤ L - (nth exons i).start ∧
                  w.stop ≥ L - (nth exons i).stop ∧
                  w.stop ≥ L - (nth exons i).start - cfg.exonic_min_distance)
                  from fun hN => hp4 ⟨hN.1, by omega, by omega, by omega⟩)]
            by_cases hp5 : v.stop < (nth exons i).start ∧
                v.stop ≥ (nth exons i).start - cfg.intronic_min_distance ∧
                i ≠ 0 ∧ v.stop > (nth exons (i-1)).stop
            · rw [if_pos hp5,
                  if_pos (show w.stop > L - (nth exons i).start ∧
                    w.stop ≤ L - (nth exons i).start + cfg.intronic_min_distance ∧
                    i ≠ 0 ∧ w.stop < L - (nth exons (i-1)).stop
                    from ⟨by omega, by omega, hp5.2.2.1, by omega⟩)]
              exact set_cis_outcome_eq rfl (by dsimp only; omega)
            · rw [if_neg hp5,
                  if_neg (show ¬(w.stop > L - (nth exons i).start ∧
                    w.stop ≤ L - (nth exons i).start + cfg.intronic_min_distance ∧
                    i ≠ 0 ∧ w.stop < L - (nth exons (i-1)).stop)
                    from fun hN => hp5 ⟨by omega, by omega, hN.2.2.1, by omega⟩),
                  if_neg (show ¬(i ≠ exons.length - 1 ∧ v.stop ≤ (nth exons i).stop ∧
                    v.stop ≥ (nth exons i).start ∧
                    v.stop ≥ (nth exons i).stop - cfg.exonic_min_distance)
                    from fun hP => hP.1 hlast),
                  if_neg (show ¬(v.stop > (nth exons i).stop ∧
                    v.stop ≤ (nth exons i).stop + cfg.intronic_min_distance ∧
                    i ≠ exons.length - 1 ∧ v.stop < (nth exons (i+1)).start)
                    from fun hP => hP.2.2.1 hlast)]
              exact ih (i+1) v w hw hs ha
      · -- not the last exon
        have hip : i + 1 < exons.length := by omega
        rw [nth_map hip]
        simp only [reflectBED]
        by_cases hp2 : cfg.all_intronic_space = true ∧ i ≠ exons.length - 1 ∧
            v.stop > (nth exons i).stop ∧ v.stop < (nth exons (i+1)).start
        · rw [if_pos hp2,
              if_pos (show cfg.all_intronic_space = true ∧ i ≠ exons.length - 1 ∧
                w.stop < L - (nth exons i).stop ∧ w.stop > L - (nth exons (i+1)).start
                from ⟨hp2.1, hp2.2.1, by omega, by omega⟩)]
          exact ⟨rfl, by dsimp only; omega⟩
        · rw [if_neg hp2,
              if_neg (show ¬(cfg.all_intronic_space = true ∧ i ≠ exons.length - 1 ∧
                w.stop < L - (nth exons i).stop ∧ w.stop > L - (nth exons (i+1)).start)
                from fun hN => hp2 ⟨hN.1, hN.2.1, by omega, by omega⟩)]
          by_cases hp3 : (nth exons i).start - cfg.intronic_min_distance > v.stop
          · rw [if_pos hp3,
                if_pos (show L - (nth exons i).start + cfg.intronic_min_distance < w.stop
                  from by omega)]
            exact ⟨ha, hs⟩
          · rw [if_neg hp3,
                if_neg (show ¬(L - (nth exons i).start + cfg.intronic_min_distance < w.stop)
                  from by omega)]
            by_cases hp4 : i ≠ 0 ∧ v.stop ≥ (nth exons i).start ∧
                v.stop ≤ (nth exons i).stop ∧
                v.stop ≤ (nth exons i).start + cfg.exonic_min_distance
            · rw [if_pos hp4]
              by_cases hp6 : i ≠ exons.length - 1 ∧ v.stop ≤ (nth exons i).stop ∧
                  v.stop ≥ (nth exons i).start ∧
                  v.stop ≥ (nth exons i).stop - cfg.exonic_min_distance
              · rw [if_pos (show i ≠ exons.length - 1 ∧ w.stop ≥ L - (nth exons i).stop ∧
                    w.stop ≤ L - (nth exons i).start ∧
                    w.stop ≤ L - (nth exons i).stop + cfg.exonic_min_distance
                    from ⟨hp6.1, by omega, by omega, by omega⟩)]
                exact set_cis_outcome_eq rfl (by dsimp only; omega)
              · rw [if_neg (show ¬(i ≠ exons.length - 1 ∧ w.stop ≥ L - (nth exons i).stop ∧
                      w.stop ≤ L - (nth exons i).start ∧
                      w.stop ≤ L - (nth exons i).stop + cfg.exonic_min_distance)
                      from fun hN => hp6 ⟨hN.1, by omega, by omega, by omega⟩),
                    if_neg (show ¬(w.stop < L - (nth exons i).stop ∧
                      w.stop ≥ L - (nth exons i).stop - cfg.intronic_min_distance ∧
                      i ≠ exons.length - 1 ∧ w.stop > L - (nth exons (i+1)).start)
                      from fun hN => by omega),
                    if_pos (show i ≠ 0 ∧ w.stop ≤ L - (nth exons i).start ∧
                      w.stop ≥ L - (nth exons i).stop ∧
                      w.stop ≥ L - (nth exons i).start - cfg.exonic_min_distance
                      from ⟨hp4.1, by omega, by omega, by omega⟩)]
                exact set_cis_outcome_eq rfl (by dsimp only; omega)
            · rw [if_neg hp4]
              by_cases hp5 : v.stop < (nth exons i).start ∧
                  v.stop ≥ (nth exons i).start - cfg.intronic_min_distance ∧
                  i ≠ 0 ∧ v.stop > (nth exons (i-1)).stop
              · rw [if_pos hp5,
                    if_neg (show ¬(i ≠ exons.length - 1 ∧ w.stop ≥ L - (nth exons i).stop ∧
                      w.stop ≤ L - (nth exons i).start ∧
                      w.stop ≤ L - (nth exons i).stop + cfg.exonic_min_distance)
                      from fun hN => by omega),
                    if_neg (show ¬(w.stop < L - (nth exons i).stop ∧
                      w.stop ≥ L - (nth exons i).stop - cfg.intronic_min_distance ∧
                      i ≠ exons.length - 1 ∧ w.stop > L - (nth exons (i+1)).start)
                      from fun hN => by omega),
                    if_neg (show ¬(i ≠ 0 ∧ w.stop ≤ L - (nth exons i).start ∧
                      w.stop ≥ L - (nth exons i).stop ∧
                      w.stop ≥ L - (nth exons i).start - cfg.exonic_min_distance)
                      from fun hN => by omega),
                    if_pos (show w.stop > L - (nth exons i).start ∧
                      w.stop ≤ L - (nth exons i).start + cfg.intronic_min_distance ∧
                      i ≠ 0 ∧ w.stop < L - (nth exons (i-1)).stop
                      from ⟨by omega, by omega, hp5.2.2.1, by omega⟩)]
                exact set_cis_outcome_eq rfl (by dsimp only; omega)
              · rw [if_neg hp5]
                by_cases hp6 : i ≠ exons.length - 1 ∧ v.stop ≤ (nth exons i).stop ∧
                    v.stop ≥ (nth exons i).start ∧
                    v.stop ≥ (nth exons i).stop - cfg.exonic_min_distance
                · rw [if_pos hp6,
                      if_pos (show i ≠ exons.length - 1 ∧ w.stop ≥ L - (nth exons i).stop ∧
                        w.stop ≤ L - (nth exons i).start ∧
                        w.stop ≤ L - (nth exons i).stop + cfg.exonic_min_distance
                        from ⟨hp6.1, by omega, by omega, by omega⟩)]
                  exact set_cis_outcome_eq rfl (by dsimp only; omega)
                · rw [if_neg hp6,
                      if_neg (show ¬(i ≠ exons.length - 1 ∧ w.stop ≥ L - (nth exons i).stop ∧
                        w.stop ≤ L - (nth exons i).start ∧
                        w.stop ≤ L - (nth exons i).stop + cfg.exonic_min_distance)
                        from fun hN => hp6 ⟨hN.1, by omega, by omega, by omega⟩)]
                  by_cases hp7 : v.stop > (nth exons i).stop ∧
                      v.stop ≤ (nth exons i).stop + cfg.intronic_min_distance ∧
                      i ≠ exons.length - 1 ∧ v.stop < (nth exons (i+1)).start
                  · rw [if_pos hp7,
                        if_pos (show w.stop < L - (nth exons i).stop ∧
                          w.stop ≥ L - (nth exons i).stop - cfg.intronic_min_distance ∧
                          i ≠ exons.length - 1 ∧ w.stop > L - (nth exons (i+1)).start
                          from ⟨by omega, by omega, hp7.2.2.1, by omega⟩)]
                    exact set_cis_outcome_eq rfl (by dsimp only; omega)
                  · rw [if_neg hp7,
                        if_neg (show ¬(w.stop < L - (nth exons i).stop ∧
                          w.stop ≥ L - (nth exons i).stop - cfg.intronic_min_distance ∧
                          i ≠ exons.length - 1 ∧ w.stop > L - (nth exons (i+1)).start)
                          from fun hN => hp7 ⟨by omega, by omega, hN.2.2.1, by omega⟩),
                        if_neg (show ¬(i ≠ 0 ∧ w.stop ≤ L - (nth exons i).start ∧
                          w.stop ≥ L - (nth exons i).stop ∧
                          w.stop ≥ L - (nth exons i).start - cfg.exonic_min_distance)
                          from fun hN => hp4 ⟨hN.1, by omega, by omega, by omega⟩),
                        if_neg (show ¬(w.stop > L - (nth exons i).start ∧
                          w.stop ≤ L - (nth exons i).start + cfg.intronic_min_distance ∧
                          i ≠ 0 ∧ w.stop < L - (nth exons (i-1)).stop)
                          from fun hN => hp5 ⟨by omega, by omega, hN.2.2.1, by omega⟩)]
                    exact ih (i+1) v w hw hs ha

/-! ### Early termination is sound on the respective contract orders -/

/-- If every exon from position `i` on starts beyond
`variant.stop + intronic_min_distance`, the shortcut-free `+`-strand scan
finds nothing from `i` on. -/
theorem gvo_ps_go_noet_dead (cfg : Config) (exons : List BED)
    (himd : 0 ≤ cfg.intronic_min_distance) (hwf : wfExons exons) :
    ∀ fuel i (v : AnnotatedVariant),
      (∀ j, i ≤ j → j < exons.length →
        v.stop < (nth exons j).start - cfg.intronic_min_distance) →
      gvo_ps_go_noet cfg exons fuel v i = v := by
  intro fuel
  induction fuel with
  | zero => intro i v _; rfl
  | succ fuel ih =>
    intro i v hcond
    simp only [gvo_ps_go_noet]
    by_cases hi : i < exons.length
    · have hc := hcond i (le_refl i) hi
      have hwfi := wfExons_nth hwf hi
      rw [if_pos hi,
          if_neg (show ¬(cfg.all_exonic_space = true ∧ v.stop ≥ (nth exons i).start ∧
            v.stop ≤ (nth exons i).stop) from fun h => by omega),
          if_neg (show ¬(cfg.all_intronic_space = true ∧ i ≠ exons.length - 1 ∧
            v.stop > (nth exons i).stop ∧ v.stop < (nth exons (i+1)).start)
            from fun h => by omega),
          if_neg (show ¬(i ≠ 0 ∧ v.stop ≥ (nth exons i).start ∧ v.stop ≤ (nth exons i).stop ∧
            v.stop ≤ (nth exons i).start + cfg.exonic_min_distance) from fun h => by omega),
          if_neg (show ¬(v.stop < (nth exons i).start ∧
            v.stop ≥ (nth exons i).start - cfg.intronic_min_distance ∧
            i ≠ 0 ∧ v.stop > (nth exons (i-1)).stop) from fun h => by omega),
          if_neg (show ¬(i ≠ exons.length - 1 ∧ v.stop ≤ (nth exons i).stop ∧
            v.stop ≥ (nth exons i).start ∧
            v.stop ≥ (nth exons i).stop - cfg.exonic_min_distance) from fun h => by omega),
          if_neg (show ¬(v.stop > (nth exons i).stop ∧
            v.stop ≤ (nth exons i).stop + cfg.intronic_min_distance ∧
            i ≠ exons.length - 1 ∧ v.stop < (nth exons (i+1)).start) from fun h => by omega)]
      exact ih (i+1) v (fun j hj hjl => hcond j (by omega) hjl)
    · rw [if_neg hi]

/-- If every exon from position `i` on ends short of
`variant.stop - intronic_min_distance`, the shortcut-free `-`-strand scan
finds nothing from `i` on. -/
theorem gvo_ns_go_noet_dead (cfg : Config) (exons : List BED)
    (himd : 0 ≤ cfg.intronic_min_distance) (hwf : wfExons exons) :
    ∀ fuel i (v : AnnotatedVariant),
      (∀ j, i ≤ j → j < exons.length →
        (nth exons j).stop + cfg.intronic_min_distance < v.stop) →
      gvo_ns_go_noet cfg exons fuel v i = v := by
  intro fuel
  induction fuel with
  | zero => intro i v _; rfl
  | succ fuel ih =>
    intro i v hcond
    simp only [gvo_ns_go_noet]
    by_cases hi : i < exons.length
    · have hc := hcond i (le_refl i) hi
      have hwfi := wfExons_nth hwf hi
      rw [if_pos hi,
          if_neg (show ¬(cfg.all_exonic_space = true ∧ v.stop ≥ (nth exons i).start ∧
            v.stop ≤ (nth exons i).stop) from fun h => by omega),
          if_neg (show ¬(cfg.all_intronic_space = true ∧ i ≠ exons.length - 1 ∧
            v.stop < (nth exons i).start ∧ v.stop > (nth exons (i+1)).stop)
            from fun h => by omega),
          if_neg (show ¬(i ≠ exons.length - 1 ∧ v.stop ≥ (nth exons i).start ∧
            v.stop ≤ (nth exons i).stop ∧
            v.stop ≤ (nth exons i).start + cfg.exonic_min_distance) from fun h => by omega),
          if_neg (show ¬(v.stop < (nth exons i).start ∧
            v.stop ≥ (nth exons i).start - cfg.intronic_min_distance ∧
            i ≠ exons.length - 1 ∧ v.stop > (nth exons (i+1)).stop) from fun h => by omega),
          if_neg (show ¬(i ≠ 0 ∧ v.stop ≤ (nth exons i).stop ∧
            v.stop ≥ (nth exons i).start ∧
            v.stop ≥ (nth exons i).stop - cfg.exonic_min_distance) from fun h => by omega),
          if_neg (show ¬(v.stop > (nth exons i).stop ∧
            v.stop ≤ (nth exons i).stop + cfg.intronic_min_distance ∧
            i ≠ 0 ∧ v.stop < (nth exons (i-1)).start) from fun h => by omega)]
      exact ih (i+1) v (fun j hj hjl => hcond j (by omega) hjl)
    · rw [if_neg hi]

theorem gvo_ps_go_et_equiv (cfg : Config) (exons : List BED)
    (himd : 0 ≤ cfg.intronic_min_distance) (hwf : wfExons exons)
    (hsort : sortedAscStart exons) :
    ∀ fuel i (v : AnnotatedVariant),
      gvo_ps_go cfg exons fuel v i = gvo_ps_go_noet cfg exons fuel v i := by
  intro fuel
  induction fuel with
  | zero => intro i v; rfl
  | succ fuel ih =>
    intro i v
    simp only [gvo_ps_go, gvo_ps_go_noet]
    by_cases hi : i < exons.length
    · rw [if_pos hi, if_pos hi]
      have hwfi := wfExons_nth hwf hi
      by_cases hp3 : (nth exons i).start - cfg.intronic_min_distance > v.stop
      · rw [if_neg (show ¬(cfg.all_exonic_space = true ∧ v.stop ≥ (nth exons i).start ∧
              v.stop ≤ (nth exons i).stop) from fun h => by omega),
            if_neg (show ¬(cfg.all_exonic_space = true ∧ v.stop ≥ (nth exons i).start ∧
              v.stop ≤ (nth exons i).stop) from fun h => by omega),
            if_neg (show ¬(cfg.all_intronic_space = true ∧ i ≠ exons.length - 1 ∧
              v.stop > (nth exons i).stop ∧ v.stop < (nth exons (i+1)).start)
              from fun h => by omega),
            if_neg (show ¬(cfg.all_intronic_space = true ∧ i ≠ exons.length - 1 ∧
              v.stop > (nth exons i).stop ∧ v.stop < (nth exons (i+1)).start)
              from fun h => by omega),
            if_pos hp3,
            if_neg (show ¬(i ≠ 0 ∧ v.stop ≥ (nth exons i).start ∧
              v.stop ≤ (nth exons i).stop ∧
              v.stop ≤ (nth exons i).start + cfg.exonic_min_distance) from fun h => by omega),
            if_neg (show ¬(v.stop < (nth exons i).start ∧
              v.stop ≥ (nth exons i).start - cfg.intronic_min_distance ∧
              i ≠ 0 ∧ v.stop > (nth exons (i-1)).stop) from fun h => by omega),
            if_neg (show ¬(i ≠ exons.length - 1 ∧ v.stop ≤ (nth exons i).stop ∧
              v.stop ≥ (nth exons i).start ∧
              v.stop ≥ (nth exons i).stop - cfg.exonic_min_distance) from fun h => by omega),
            if_neg (show ¬(v.stop > (nth exons i).stop ∧
              v.stop ≤ (nth exons i).stop + cfg.intronic_min_distance ∧
              i ≠ exons.length - 1 ∧ v.stop < (nth exons (i+1)).start) from fun h => by omega)]
        exact (gvo_ps_go_noet_dead cfg exons himd hwf fuel (i+1) v
          (fun j hj hjl => by
            have := sortedAscStart_nth hsort (show i ≤ j by omega) hjl
            omega)).symm
      · rw [if_neg hp3]
        split_ifs <;> first | rfl | exact ih (i+1) v
    · rw [if_neg hi, if_neg hi]

theorem gvo_ns_go_et_equiv (cfg : Config) (exons : List BED)
    (himd : 0 ≤ cfg.intronic_min_distance) (hwf : wfExons exons)
    (hsort : sortedDescStop exons) :
    ∀ fuel i (v : AnnotatedVariant),
      gvo_ns_go cfg exons fuel v i = gvo_ns_go_noet cfg exons fuel v i := by
  intro fuel
  induction fuel with
  | zero => intro i v; rfl
  | succ fuel ih =>
    intro i v
    simp only [gvo_ns_go, gvo_ns_go_noet]
    by_cases hi : i < exons.length
    · rw [if_pos hi, if_pos hi]
      have hwfi := wfExons_nth hwf hi
      by_cases hp3 : (nth exons i).stop + cfg.intronic_min_distance < v.stop
      · rw [if_neg (show ¬(cfg.all_exonic_space = true ∧ v.stop ≥ (nth exons i).start ∧
              v.stop ≤ (nth exons i).stop) from fun h => by omega),
            if_neg (show ¬(cfg.all_exonic_space = true ∧ v.stop ≥ (nth exons i).start ∧
              v.stop ≤ (nth exons i).stop) from fun h => by omega),
            if_neg (show ¬(cfg.all_intronic_space = true ∧ i ≠ exons.length - 1 ∧
              v.stop < (nth exons i).start ∧ v.stop > (nth exons (i+1)).stop)
              from fun h => by omega),
            if_neg (show ¬(cfg.all_intronic_space = true ∧ i ≠ exons.length - 1 ∧
              v.stop < (nth exons i).start ∧ v.stop > (nth exons (i+1)).stop)
              from fun h => by omega),
            if_pos hp3,
            if_neg (show ¬(i ≠ exons.length - 1 ∧ v.stop ≥ (nth exons i).start ∧
              v.stop ≤ (nth exons i).stop ∧
              v.stop ≤ (nth exons i).start + cfg.exonic_min_distance) from fun h => by omega),
            if_neg (show ¬(v.stop < (nth exons i).start ∧
              v.stop ≥ (nth exons i).start - cfg.intronic_min_distance ∧
              i ≠ exons.length - 1 ∧ v.stop > (nth exons (i+1)).stop) from fun h => by omega),
            if_neg (show ¬(i ≠ 0 ∧ v.stop ≤ (nth exons i).stop ∧
              v.stop ≥ (nth exons i).start ∧
              v.stop ≥ (nth exons i).stop - cfg.exonic_min_distance) from fun h => by omega),
            if_neg (show ¬(v.stop > (nth exons i).stop ∧
              v.stop ≤ (nth exons i).stop + cfg.intronic_min_distance ∧
              i ≠ 0 ∧ v.stop < (nth exons (i-1)).start) from fun h => by omega)]
        exact (gvo_ns_go_noet_dead cfg exons himd hwf fuel (i+1) v
          (fun j hj hjl => by
            have := sortedDescStop_nth hsort (show i ≤ j by omega) hjl
            omega)).symm
      · rw [if_neg hp3]
        split_ifs <;> first | rfl | exact ih (i+1) v
    · rw [if_neg hi, if_neg hi]

/-! ### Score bound in proximity mode -/

theorem gvo_ps_go_score_bound (cfg : Config) (exons : List BED)
    (hae : cfg.all_exonic_space = false) (hai : cfg.all_intronic_space = false) :
    ∀ fuel i (v : AnnotatedVariant),
      gvo_ps_go cfg exons fuel v i = v ∨
      (0 ≤ (gvo_ps_go cfg exons fuel v i).score ∧
       (gvo_ps_go cfg exons fuel v i).score ≤
         max cfg.exonic_min_distance cfg.intronic_min_distance) := by
  intro fuel
  induction fuel with
  | zero => intro i v; exact Or.inl rfl
  | succ fuel ih =>
    intro i v
    simp only [gvo_ps_go]
    by_cases hi : i < exons.length
    · rw [if_pos hi, if_neg (by simp [hae]), if_neg (by simp [hai])]
      by_cases hp3 : (nth exons i).start - cfg.intronic_min_distance > v.stop
      · rw [if_pos hp3]; exact Or.inl rfl
      · rw [if_neg hp3]
        by_cases hp4 : i ≠ 0 ∧ v.stop ≥ (nth exons i).start ∧ v.stop ≤ (nth exons i).stop ∧
            v.stop ≤ (nth exons i).start + cfg.exonic_min_distance
        · rw [if_pos hp4]
          right
          rw [set_cis_score]
          dsimp only
          omega
        · rw [if_neg hp4]
          by_cases hp5 : v.stop < (nth exons i).start ∧
              v.stop ≥ (nth exons i).start - cfg.intronic_min_distance ∧
              i ≠ 0 ∧ v.stop > (nth exons (i-1)).stop
          · rw [if_pos hp5]
            right
            rw [set_cis_score]
            dsimp only
            omega
          · rw [if_neg hp5]
            by_cases hp6 : i ≠ exons.length - 1 ∧ v.stop ≤ (nth exons i).stop ∧
                v.stop ≥ (nth exons i).start ∧
                v.stop ≥ (nth exons i).stop - cfg.exonic_min_distance
            · rw [if_pos hp6]
              right
              rw [set_cis_score]
              dsimp only
              omega
            · rw [if_neg hp6]
              by_cases hp7 : v.stop > (nth exons i).stop ∧
                  v.stop ≤ (nth exons i).stop + cfg.intronic_min_distance ∧
                  i ≠ exons.length - 1 ∧ v.stop < (nth exons (i+1)).start
              · rw [if_pos hp7]
                right
                rw [set_cis_score]
                dsimp only
                omega
              · rw [if_neg hp7]
                exact ih (i+1) v
    · rw [if_neg hi]
      exact Or.inl rfl

theorem gvo_ns_go_score_bound (cfg : Config) (exons : List BED)
    (hae : cfg.all_exonic_space = false) (hai : cfg.all_intronic_space = false) :
    ∀ fuel i (v : AnnotatedVariant),
      gvo_ns_go cfg exons fuel v i = v ∨
      (0 ≤ (gvo_ns_go cfg exons fuel v i).score ∧
       (gvo_ns_go cfg exons fuel v i).score ≤
         max cfg.exonic_min_distance cfg.intronic_min_distance) := by
  intro fuel
  induction fuel with
  | zero => intro i v; exact Or.inl rfl
  | succ fuel ih =>
    intro i v
    simp only [gvo_ns_go]
    by_cases hi : i < exons.length
    · rw [if_pos hi, if_neg (by simp [hae]), if_neg (by simp [hai])]
      by_cases hp3 : (nth exons i).stop + cfg.intronic_min_distance < v.stop
      · rw [if_pos hp3]; exact Or.inl rfl
      · rw [if_neg hp3]
        by_cases hp4 : i ≠ exons.length - 1 ∧ v.stop ≥ (nth exons i).start ∧
            v.stop ≤ (nth exons i).stop ∧
            v.stop ≤ (nth exons i).start + cfg.exonic_min_distance
        · rw [if_pos hp4]
          right
          rw [set_cis_score]
          dsimp only
          omega
        · rw [if_neg hp4]
          by_cases hp5 : v.stop < (nth exons i).start ∧
              v.stop ≥ (nth exons i).start - cfg.intronic_min_distance ∧
              i ≠ exons.length - 1 ∧ v.stop > (nth exons (i+1)).stop
          · rw [if_pos hp5]
            right
            rw [set_cis_score]
            dsimp only
            omega
          · rw [if_neg hp5]
            by_cases hp6 : i ≠ 0 ∧ v.stop ≤ (nth exons i).stop ∧
                v.stop ≥ (nth exons i).start ∧
                v.stop ≥ (nth exons i).stop - cfg.exonic_min_distance
            · rw [if_pos hp6]
              right
              rw [set_cis_score]
              dsimp only
              omega
            · rw [if_neg hp6]
              by_cases hp7 : v.stop > (nth exons i).stop ∧
                  v.stop ≤ (nth exons i).stop + cfg.intronic_min_distance ∧
                  i ≠ 0 ∧ v.stop < (nth exons (i-1)).start
              · rw [if_pos hp7]
                right
                rw [set_cis_score]
                dsimp only
                omega
              · rw [if_neg hp7]
                exact ih (i+1) v
    · rw [if_neg hi]
      exact Or.inl rfl

/-! ### String accumulation helpers -/

theorem append_comma_ne_NA (s1 s2 : String) : s1 ++ "," ++ s2 ≠ "NA" := by
  intro h
  have hmem : ',' ∈ (s1 ++ "," ++ s2).data := by
    show ',' ∈ (s1.data ++ [','] ++ s2.data)
    simp
  rw [h] at hmem
  revert hmem
  decide

theorem joinComma_append_singleton (l : List String) (x : String) (hl : l ≠ []) :
    joinComma (l ++ [x]) = joinComma l ++ "," ++ x := by
  cases l with
  | nil => exact absurd rfl hl
  | cons a as => simp [joinComma, List.foldl_append]

/-! ### Aggregator helpers -/

theorem annotate_one_skip (cfg : Config) (st : AggState) (t : Transcript)
    (hskip : cfg.skip_single_exon_genes = true) (h1 : t.exons.length = 1) :
    annotate_one cfg st t = .ok st := by
  unfold annotate_one
  rw [if_neg (by omega), if_pos ⟨hskip, h1⟩]

theorem annotate_loop_insert_skip (cfg : Config) (t : Transcript)
    (hskip : cfg.skip_single_exon_genes = true) (h1 : t.exons.length = 1) :
    ∀ (pre post : List Transcript) (st : AggState),
      annotate_loop cfg (pre ++ t :: post) st = annotate_loop cfg (pre ++ post) st := by
  intro pre
  induction pre with
  | nil =>
    intro post st
    simp only [List.nil_append, annotate_loop, annotate_one_skip cfg st t hskip h1]
  | cons p ps ih =>
    intro post st
    simp only [List.cons_append, annotate_loop]
    cases annotate_one cfg st p with
    | error e => rfl
    | ok st' => exact ih post st'

theorem annotate_loop_error_append (cfg : Config) :
    ∀ (ts1 ts2 : List Transcript) (st : AggState) (e : AnnotError),
      annotate_loop cfg ts1 st = .error e →
      annotate_loop cfg (ts1 ++ ts2) st = .error e := by
  intro ts1
  induction ts1 with
  | nil => intro ts2 st e h; exact absurd h (by simp [annotate_loop])
  | cons t ts ih =>
    intro ts2 st e h
    simp only [annotate_loop, List.cons_append] at h ⊢
    cases hone : annotate_one cfg st t with
    | error e' => rw [hone] at h; exact h
    | ok st' =>
      rw [hone] at h
      exact ih ts2 st' e h

theorem annotate_one_ok_variant (cfg : Config) (st : AggState) (t : Transcript)
    {st' : AggState} (h : annotate_one cfg st t = .ok st') :
    st' = st ∨ ∃ v, get_variant_overlaps_spliceregion cfg t.exons st.variant = .ok v ∧
      st'.variant = v := by
  unfold annotate_one at h
  by_cases h0 : t.exons.length = 0
  · rw [if_pos h0] at h
    exact absurd h (by simp)
  · rw [if_neg h0] at h
    by_cases hskip : cfg.skip_single_exon_genes = true ∧ t.exons.length = 1
    · rw [if_pos hskip] at h
      injection h with h
      exact Or.inl h.symm
    · rw [if_neg hskip] at h
      cases hg : get_variant_overlaps_spliceregion cfg t.exons st.variant with
      | error e => rw [hg] at h; exact absurd h (by simp)
      | ok v =>
        rw [hg] at h
        dsimp only at h
        refine Or.inr ⟨v, rfl, ?_⟩
        split_ifs at h <;> (injection h with h; subst h; rfl)

theorem annotate_one_cis_mono (cfg : Config) (st : AggState) (t : Transcript)
    {st' : AggState} (h : annotate_one cfg st t = .ok st') :
    st'.variant.cis_effect_start ≤ st.variant.cis_effect_start ∧
    st.variant.cis_effect_end ≤ st'.variant.cis_effect_end ∧
    st'.variant.stop = st.variant.stop := by
  rcases annotate_one_ok_variant cfg st t h with rfl | ⟨v, hg, hv⟩
  · exact ⟨le_refl _, le_refl _, rfl⟩
  · rw [hv]
    have h1 := gvos_ok_cis_widen cfg t.exons hg
    exact ⟨h1.1, h1.2, gvos_ok_stop cfg t.exons hg⟩

theorem annotate_loop_cis_mono (cfg : Config) :
    ∀ (ts : List Transcript) (st st' : AggState),
      annotate_loop cfg ts st = .ok st' →
      st'.variant.cis_effect_start ≤ st.variant.cis_effect_start ∧
      st.variant.cis_effect_end ≤ st'.variant.cis_effect_end ∧
      st'.variant.stop = st.variant.stop := by
  intro ts
  induction ts with
  | nil =>
    intro st st' h
    simp only [annotate_loop, Except.ok.injEq] at h
    subst h
    exact ⟨le_refl _, le_refl _, rfl⟩
  | cons t ts ih =>
    intro st st' h
    simp only [annotate_loop] at h
    cases hone : annotate_one cfg st t with
    | error e => rw [hone] at h; exact absurd h (by simp)
    | ok st1 =>
      rw [hone] at h
      have h1 := annotate_one_cis_mono cfg st t hone
      have h2 := ih st1 st' h
      exact ⟨le_trans h2.1 h1.1, le_trans h1.2.1 h2.2.1, h2.2.2.trans h1.2.2⟩

/-! ### Dispatcher helpers -/

theorem gvos_ok_of_strand (cfg : Config) (exons : List BED) (v : AnnotatedVariant)
    (h : (nth exons 0).strand = "+" ∨ (nth exons 0).strand = "-") :
    ∃ r, get_variant_overlaps_spliceregion cfg exons v = .ok r := by
  unfold get_variant_overlaps_spliceregion
  rcases h with h | h
  · rw [if_pos h]; exact ⟨_, rfl⟩
  · rw [if_neg (show ¬(nth exons 0).strand = "+" by rw [h]; decide), if_pos h]
    exact ⟨_, rfl⟩

theorem gvos_ok_outcome (cfg : Config) (exons : List BED) {v w r r' : AnnotatedVariant}
    (hstop : v.stop = w.stop)
    (hv : get_variant_overlaps_spliceregion cfg exons v = .ok r)
    (hw : get_variant_overlaps_spliceregion cfg exons w = .ok r') :
    r.annot = r'.annot ∧ r.score = r'.score := by
  unfold get_variant_overlaps_spliceregion at hv hw
  split_ifs at hv hw <;> simp only [Except.ok.injEq] at hv hw
  · subst hv; subst hw; exact gvo_ps_outcome_of_stop cfg exons hstop
  · subst hv; subst hw; exact gvo_ns_outcome_of_stop cfg exons hstop

/-! ### Gene-dedup fold invariant -/

theorem dedup_loop (cfg : Config) (g : String) (v0 : AnnotatedVariant) :
    ∀ (ts : List Transcript) (st : AggState) (ids ds as : List String),
      (∀ t ∈ ts, goodT cfg g v0 t) →
      st.variant.stop = v0.stop →
      st.overlapping_transcripts ≠ "NA" →
      ids ≠ [] → ds ≠ [] → as ≠ [] →
      st.overlapping_genes = g →
      g ∈ st.unique_genes →
      st.overlapping_transcripts = joinComma ids →
      st.overlapping_distances = joinComma ds →
      st.annots = joinComma as →
      ∃ st' : AggState,
        annotate_loop cfg ts st = .ok st' ∧
        st'.overlapping_genes = g ∧
        st'.overlapping_transcripts = joinComma (ids ++ ts.map Transcript.id) ∧
        st'.overlapping_distances =
          joinComma (ds ++ ts.map (fun t => toString (classifyT cfg v0 t).score)) ∧
        st'.annots = joinComma (as ++ ts.map (fun t => (classifyT cfg v0 t).annot)) := by
  intro ts
  induction ts with
  | nil =>
    intro st ids ds as _ _ _ _ _ _ hog hmem hot hod has
    exact ⟨st, rfl, hog, by simpa using hot, by simpa using hod, by simpa using has⟩
  | cons t ts ih =>
    intro st ids ds as hgood hstop hNA hids hds has hog hmem hot hod hann
    obtain ⟨hgene, hid, hne, hnskip, hstrand, hrel⟩ := hgood t (List.mem_cons_self t ts)
    obtain ⟨v, hv⟩ := gvos_ok_of_strand cfg t.exons st.variant hstrand
    obtain ⟨r0, hr0⟩ := gvos_ok_of_strand cfg t.exons v0 hstrand
    have hct : classifyT cfg v0 t = r0 := by unfold classifyT; rw [hr0]
    have houtc := gvos_ok_outcome cfg t.exons hstop hv hr0
    have hvstop : v.stop = st.variant.stop := gvos_ok_stop cfg t.exons hv
    have hvrel : v.annot ≠ "non_splice_region" := by
      rw [houtc.1, ← hct]; exact hrel
    have hgmem : t.gene ∈ st.unique_genes := by rw [hgene]; exact hmem
    have hone : annotate_one cfg st t = .ok
        { overlapping_genes := st.overlapping_genes,
          overlapping_transcripts := st.overlapping_transcripts ++ "," ++ t.id,
          overlapping_distances := st.overlapping_distances ++ "," ++ toString v.score,
          annots := st.annots ++ "," ++ v.annot,
          unique_genes := st.unique_genes,
          variant := v } := by
      unfold annotate_one
      rw [if_neg (show ¬(t.exons.length = 0) from fun h0 =>
            hne (List.length_eq_zero.mp h0)),
          if_neg hnskip, hv]
      dsimp only
      rw [if_pos hvrel, if_pos hNA, if_pos hgmem, if_pos hgmem]
    obtain ⟨st', hloop, h1, h2, h3, h4⟩ :=
      ih { overlapping_genes := st.overlapping_genes,
           overlapping_transcripts := st.overlapping_transcripts ++ "," ++ t.id,
           overlapping_distances := st.overlapping_distances ++ "," ++ toString v.score,
           annots := st.annots ++ "," ++ v.annot,
           unique_genes := st.unique_genes,
           variant := v }
        (ids ++ [t.id]) (ds ++ [toString (classifyT cfg v0 t).score])
        (as ++ [(classifyT cfg v0 t).annot])
        (fun u hu => hgood u (List.mem_cons_of_mem t hu))
        (by dsimp only; rw [hvstop]; exact hstop)
        (append_comma_ne_NA _ _)
        (by simp) (by simp) (by simp)
        hog hmem
        (by dsimp only; rw [hot, joinComma_append_singleton ids t.id hids])
        (by dsimp only; rw [hod, joinComma_append_singleton ds _ hds, houtc.2, hct])
        (by dsimp only; rw [hann, joinComma_append_singleton as _ has, houtc.1, hct])
    refine ⟨st', ?_, h1, ?_, ?_, ?_⟩
    · show annotate_loop cfg (t :: ts) st = .ok st'
      simp only [annotate_loop]
      rw [hone]
      exact hloop
    · rw [h2]; simp [List.append_assoc]
    · rw [h3]; simp [List.append_assoc]
    · rw [h4]; simp [List.append_assoc]

/-! ### Error-condition helpers -/

theorem gvos_unknown_iff (cfg : Config) (exons : List BED) (v : AnnotatedVariant) :
    get_variant_overlaps_spliceregion cfg exons v =
      .error (.UnknownStrand (nth exons 0).strand) ↔
    ((nth exons 0).strand ≠ "+" ∧ (nth exons 0).strand ≠ "-") := by
  unfold get_variant_overlaps_spliceregion
  split_ifs with h1 h2
  · constructor
    · intro h; exact absurd h (by simp)
    · intro h; exact absurd h1 h.1
  · constructor
    · intro h; exact absurd h (by simp)
    · intro h; exact absurd h2 h.2
  · exact ⟨fun _ => ⟨h1, h2⟩, fun _ => rfl⟩

theorem gvos_error_unknown (cfg : Config) (exons : List BED) (v : AnnotatedVariant)
    (e : AnnotError) (h : get_variant_overlaps_spliceregion cfg exons v = .error e) :
    e = .UnknownStrand (nth exons 0).strand := by
  unfold get_variant_overlaps_spliceregion at h
  by_cases h1 : (nth exons 0).strand = "+"
  · rw [if_pos h1] at h; exact absurd h (by simp)
  · rw [if_neg h1] at h
    by_cases h2 : (nth exons 0).strand = "-"
    · rw [if_pos h2] at h; exact absurd h (by simp)
    · rw [if_neg h2] at h
      injection h with h
      exact h.symm

theorem annotate_one_missing_iff (cfg : Config) (st : AggState) (t : Transcript) :
    annotate_one cfg st t = .error (.MissingExons t.id) ↔ t.exons = [] := by
  unfold annotate_one
  by_cases h0 : t.exons.length = 0
  · rw [if_pos h0]
    exact ⟨fun _ => List.length_eq_zero.mp h0, fun _ => rfl⟩
  · rw [if_neg h0]
    constructor
    · intro h
      exfalso
      by_cases hskip : cfg.skip_single_exon_genes = true ∧ t.exons.length = 1
      · rw [if_pos hskip] at h; exact absurd h (by simp)
      · rw [if_neg hskip] at h
        cases hg : get_variant_overlaps_spliceregion cfg t.exons st.variant with
        | error e =>
          rw [hg] at h
          dsimp only at h
          injection h with h
          have h2 := gvos_error_unknown cfg t.exons st.variant e hg
          rw [h] at h2
          exact AnnotError.noConfusion h2
        | ok v =>
          rw [hg] at h
          dsimp only at h
          split_ifs at h
    · intro hempty
      exact absurd (by simp [hempty]) h0

end Regtools

namespace Regtools

/-! ## The claims -/

/-- C1: Strand symmetry of the splice-region classifier: for every exon
list sorted ascending by genomic start and every variant coordinate,
classifying against the `+`-strand transcript and classifying against the
coordinate-mirrored `-`-strand transcript (every exon interval reflected
about the transcript midpoint, in the same array layout, handled by
`get_variant_overlaps_spliceregion_ns`) yield the same annotation label
and the same score. -/
theorem C1_strand_symmetry (cfg : Config) (exons : List BED) (v : AnnotatedVariant)
    (hne : exons ≠ []) (hsort : sortedAscStart exons) (hwf : wfExons exons) :
    (get_variant_overlaps_spliceregion_ns cfg (exons.map (reflectBED (mirrorPivot exons)))
        { v with stop := mirrorPivot exons - v.stop }).annot =
      (get_variant_overlaps_spliceregion_ps cfg exons v).annot ∧
    (get_variant_overlaps_spliceregion_ns cfg (exons.map (reflectBED (mirrorPivot exons)))
        { v with stop := mirrorPivot exons - v.stop }).score =
      (get_variant_overlaps_spliceregion_ps cfg exons v).score := by
  have hlen : 0 < exons.length := List.length_pos.mpr hne
  have hl : exons.length - 1 < exons.length := by omega
  unfold get_variant_overlaps_spliceregion_ps get_variant_overlaps_spliceregion_ns
  dsimp only
  simp only [List.length_map]
  rw [nth_map hl, nth_map hlen]
  simp only [reflectBED]
  split_ifs with h1 h2 h3
  · exact ⟨rfl, rfl⟩
  · exfalso; omega
  · exfalso; omega
  · exact mirror_go cfg exons (mirrorPivot exons) hwf exons.length 0 _ _ rfl rfl rfl

theorem C1_witness :
    ([⟨100, 200, "+"⟩, ⟨300, 400, "+"⟩] : List BED) ≠ [] ∧
    sortedAscStart [⟨100, 200, "+"⟩, ⟨300, 400, "+"⟩] ∧
    wfExons [⟨100, 200, "+"⟩, ⟨300, 400, "+"⟩] ∧
    ((get_variant_overlaps_spliceregion_ns defaultConfig
        (([⟨100, 200, "+"⟩, ⟨300, 400, "+"⟩] : List BED).map
          (reflectBED (mirrorPivot [⟨100, 200, "+"⟩, ⟨300, 400, "+"⟩])))
        { mkAnnotatedVariant "chr1" 198 with
          stop := mirrorPivot [⟨100, 200, "+"⟩, ⟨300, 400, "+"⟩] -
            (mkAnnotatedVariant "chr1" 198).stop }).annot =
      (get_variant_overlaps_spliceregion_ps defaultConfig
        [⟨100, 200, "+"⟩, ⟨300, 400, "+"⟩] (mkAnnotatedVariant "chr1" 198)).annot ∧
     (get_variant_overlaps_spliceregion_ns defaultConfig
        (([⟨100, 200, "+"⟩, ⟨300, 400, "+"⟩] : List BED).map
          (reflectBED (mirrorPivot [⟨100, 200, "+"⟩, ⟨300, 400, "+"⟩])))
        { mkAnnotatedVariant "chr1" 198 with
          stop := mirrorPivot [⟨100, 200, "+"⟩, ⟨300, 400, "+"⟩] -
            (mkAnnotatedVariant "chr1" 198).stop }).score =
      (get_variant_overlaps_spliceregion_ps defaultConfig
        [⟨100, 200, "+"⟩, ⟨300, 400, "+"⟩] (mkAnnotatedVariant "chr1" 198)).score) :=
  ⟨by decide, by decide, by decide,
   C1_strand_symmetry defaultConfig _ _ (by decide) (by decide) (by decide)⟩

/-- C2 counterexample: on an ascending-by-start exon list, the `-`-strand
short-circuit rejects a variant that lies inside the transcript's
outermost boundaries (first exon's start to last exon's end).  With
`all_exonic_space` set, working coordinate 150 sits inside exon
`[100,200]` of the list `[100,200],[300,400]`, the scan itself would
label it `exonic`, yet the short-circuit condition holds and the
procedure returns `non_splice_region` with score -1. -/
theorem C2_counterexample :
    sortedAscStart [⟨100, 200, "-"⟩, ⟨300, 400, "-"⟩] ∧
    wfExons [⟨100, 200, "-"⟩, ⟨300, 400, "-"⟩] ∧
    (nth [⟨100, 200, "-"⟩, ⟨300, 400, "-"⟩] 0).start ≤
      (mkAnnotatedVariant "chr1" 149).stop ∧
    (mkAnnotatedVariant "chr1" 149).stop ≤
      (nth [⟨100, 200, "-"⟩, ⟨300, 400, "-"⟩]
        (([⟨100, 200, "-"⟩, ⟨300, 400, "-"⟩] : List BED).length - 1)).stop ∧
    ((nth [⟨100, 200, "-"⟩, ⟨300, 400, "-"⟩]
        (([⟨100, 200, "-"⟩, ⟨300, 400, "-"⟩] : List BED).length - 1)).start >
      (mkAnnotatedVariant "chr1" 149).stop ∨
     (nth [⟨100, 200, "-"⟩, ⟨300, 400, "-"⟩] 0).stop <
      (mkAnnotatedVariant "chr1" 149).stop) ∧
    (get_variant_overlaps_spliceregion_ns ⟨2, 3, false, true, true⟩
      [⟨100, 200, "-"⟩, ⟨300, 400, "-"⟩] (mkAnnotatedVariant "chr1" 149)).annot =
      "non_splice_region" ∧
    (get_variant_overlaps_spliceregion_ns ⟨2, 3, false, true, true⟩
      [⟨100, 200, "-"⟩, ⟨300, 400, "-"⟩] (mkAnnotatedVariant "chr1" 149)).score = -1 ∧
    (gvo_ns_go ⟨2, 3, false, true, true⟩ [⟨100, 200, "-"⟩, ⟨300, 400, "-"⟩] 2
      { mkAnnotatedVariant "chr1" 149 with score := -1, annot := "non_splice_region" }
      0).annot = "exonic" := by
  decide

/-- C2 (amended): the `+`-strand short-circuit fires exactly outside
`[first exon start, last exon end]`; the `-`-strand procedure reads its
list in transcript order (descending genomic coordinate), so its
short-circuit fires exactly outside `[last element start, first element
end]` — the outermost boundaries of that layout.  When the short-circuit
fires the result is `non_splice_region` with score -1; when it does not
fire, the procedure proceeds to the exon scan. -/
theorem C2_short_circuit (cfg : Config) (exons : List BED) (v : AnnotatedVariant)
    (hne : exons ≠ []) :
    (((nth exons 0).start > v.stop ∨ (nth exons (exons.length - 1)).stop < v.stop) →
      (get_variant_overlaps_spliceregion_ps cfg exons v).annot = "non_splice_region" ∧
      (get_variant_overlaps_spliceregion_ps cfg exons v).score = -1) ∧
    (¬((nth exons 0).start > v.stop ∨ (nth exons (exons.length - 1)).stop < v.stop) →
      get_variant_overlaps_spliceregion_ps cfg exons v =
        gvo_ps_go cfg exons exons.length
          { v with score := -1, annot := "non_splice_region" } 0) ∧
    (((nth exons (exons.length - 1)).start > v.stop ∨ (nth exons 0).stop < v.stop) →
      (get_variant_overlaps_spliceregion_ns cfg exons v).annot = "non_splice_region" ∧
      (get_variant_overlaps_spliceregion_ns cfg exons v).score = -1) ∧
    (¬((nth exons (exons.length - 1)).start > v.stop ∨ (nth exons 0).stop < v.stop) →
      get_variant_overlaps_spliceregion_ns cfg exons v =
        gvo_ns_go cfg exons exons.length
          { v with score := -1, annot := "non_splice_region" } 0) := by
  refine ⟨fun hg => ?_, fun hg => ?_, fun hg => ?_, fun hg => ?_⟩ <;>
    first
    | (unfold get_variant_overlaps_spliceregion_ps
       dsimp only
       first
       | (rw [if_pos hg]; exact ⟨rfl, rfl⟩)
       | rw [if_neg hg])
    | (unfold get_variant_overlaps_spliceregion_ns
       dsimp only
       first
       | (rw [if_pos hg]; exact ⟨rfl, rfl⟩)
       | rw [if_neg hg])

theorem C2_witness :
    (get_variant_overlaps_spliceregion_ps defaultConfig
      [⟨100, 200, "+"⟩, ⟨300, 400, "+"⟩] (mkAnnotatedVariant "chr1" 500)).annot =
      "non_splice_region" ∧
    (get_variant_overlaps_spliceregion_ps defaultConfig
      [⟨100, 200, "+"⟩, ⟨300, 400, "+"⟩] (mkAnnotatedVariant "chr1" 500)).score = -1 :=
  (C2_short_circuit defaultConfig [⟨100, 200, "+"⟩, ⟨300, 400, "+"⟩]
    (mkAnnotatedVariant "chr1" 500) (by decide)).1 (by decide)

/-- C3: worked scenarios on a `+`-strand transcript with exons `[100,200]`
and `[300,400]`, in proximity mode with `exonic_min_distance = 3` and
`intronic_min_distance = 2` (the defaults): working coordinate 199
(0-based input position 198) gives `SplicingExonic` with score 1, working
coordinate 202 gives `SplicingIntronic` with score 2, and working
coordinate 250 gives `NonSpliceRegion` with score -1. -/
theorem C3_worked_scenarios :
    (get_variant_overlaps_spliceregion_ps defaultConfig
        [⟨100, 200, "+"⟩, ⟨300, 400, "+"⟩] (mkAnnotatedVariant "chr1" 198)).annot =
      "splicing_exonic" ∧
    (get_variant_overlaps_spliceregion_ps defaultConfig
        [⟨100, 200, "+"⟩, ⟨300, 400, "+"⟩] (mkAnnotatedVariant "chr1" 198)).score = 1 ∧
    (get_variant_overlaps_spliceregion_ps defaultConfig
        [⟨100, 200, "+"⟩, ⟨300, 400, "+"⟩] (mkAnnotatedVariant "chr1" 201)).annot =
      "splicing_intronic" ∧
    (get_variant_overlaps_spliceregion_ps defaultConfig
        [⟨100, 200, "+"⟩, ⟨300, 400, "+"⟩] (mkAnnotatedVariant "chr1" 201)).score = 2 ∧
    (get_variant_overlaps_spliceregion_ps defaultConfig
        [⟨100, 200, "+"⟩, ⟨300, 400, "+"⟩] (mkAnnotatedVariant "chr1" 249)).annot =
      "non_splice_region" ∧
    (get_variant_overlaps_spliceregion_ps defaultConfig
        [⟨100, 200, "+"⟩, ⟨300, 400, "+"⟩] (mkAnnotatedVariant "chr1" 249)).score = -1 := by
  decide

/-- C4 counterexample: on the ascending-by-start list of valid intervals
`[1,100],[2,5],[8,9]` the `-`-strand procedure with the early-termination
shortcut returns `non_splice_region` at working coordinate 8, while the
shortcut-free scan classifies the variant `splicing_exonic`: the shortcut
is not a pure optimization on ascending lists for the `-`-strand
procedure. -/
theorem C4_counterexample :
    sortedAscStart [⟨1, 100, "-"⟩, ⟨2, 5, "-"⟩, ⟨8, 9, "-"⟩] ∧
    wfExons [⟨1, 100, "-"⟩, ⟨2, 5, "-"⟩, ⟨8, 9, "-"⟩] ∧
    0 ≤ defaultConfig.intronic_min_distance ∧
    (get_variant_overlaps_spliceregion_ns defaultConfig
        [⟨1, 100, "-"⟩, ⟨2, 5, "-"⟩, ⟨8, 9, "-"⟩] (mkAnnotatedVariant "chr1" 7)).annot =
      "non_splice_region" ∧
    (get_variant_overlaps_spliceregion_ns_noet defaultConfig
        [⟨1, 100, "-"⟩, ⟨2, 5, "-"⟩, ⟨8, 9, "-"⟩] (mkAnnotatedVariant "chr1" 7)).annot =
      "splicing_exonic" ∧
    get_variant_overlaps_spliceregion_ns defaultConfig
        [⟨1, 100, "-"⟩, ⟨2, 5, "-"⟩, ⟨8, 9, "-"⟩] (mkAnnotatedVariant "chr1" 7) ≠
      get_variant_overlaps_spliceregion_ns_noet defaultConfig
        [⟨1, 100, "-"⟩, ⟨2, 5, "-"⟩, ⟨8, 9, "-"⟩] (mkAnnotatedVariant "chr1" 7) := by
  decide

/-- C4 (amended): the early-termination shortcut is a pure optimization on
each procedure's contract order: with a non-negative intronic radius and
valid exon intervals, the `+`-strand classifier is unchanged by removing
the shortcut on every list sorted ascending by start, and the `-`-strand
classifier is unchanged on every list sorted descending by end (the
transcript order in which `-`-strand exon lists are stored). -/
theorem C4_early_termination (cfg : Config) (exons : List BED) (v : AnnotatedVariant)
    (himd : 0 ≤ cfg.intronic_min_distance) (hwf : wfExons exons) :
    (sortedAscStart exons →
      get_variant_overlaps_spliceregion_ps cfg exons v =
        get_variant_overlaps_spliceregion_ps_noet cfg exons v) ∧
    (sortedDescStop exons →
      get_variant_overlaps_spliceregion_ns cfg exons v =
        get_variant_overlaps_spliceregion_ns_noet cfg exons v) := by
  constructor
  · intro hsort
    unfold get_variant_overlaps_spliceregion_ps get_variant_overlaps_spliceregion_ps_noet
    dsimp only
    split_ifs
    · rfl
    · exact gvo_ps_go_et_equiv cfg exons himd hwf hsort exons.length 0 _
  · intro hsort
    unfold get_variant_overlaps_spliceregion_ns get_variant_overlaps_spliceregion_ns_noet
    dsimp only
    split_ifs
    · rfl
    · exact gvo_ns_go_et_equiv cfg exons himd hwf hsort exons.length 0 _

theorem C4_witness :
    0 ≤ defaultConfig.intronic_min_distance ∧
    wfExons [⟨100, 200, "+"⟩, ⟨300, 400, "+"⟩] ∧
    sortedAscStart [⟨100, 200, "+"⟩, ⟨300, 400, "+"⟩] ∧
    get_variant_overlaps_spliceregion_ps defaultConfig
        [⟨100, 200, "+"⟩, ⟨300, 400, "+"⟩] (mkAnnotatedVariant "chr1" 201) =
      get_variant_overlaps_spliceregion_ps_noet defaultConfig
        [⟨100, 200, "+"⟩, ⟨300, 400, "+"⟩] (mkAnnotatedVariant "chr1" 201) :=
  ⟨by decide, by decide, by decide,
   (C4_early_termination defaultConfig _ _ (by decide) (by decide)).1 (by decide)⟩

/-- C5: score bound in proximity mode: with `all_exonic_space` and
`all_intronic_space` both off, whenever either strand procedure produces a
score other than -1, that score is non-negative and does not exceed
`max exonic_min_distance intronic_min_distance`. -/
theorem C5_score_bound (cfg : Config) (exons : List BED) (v : AnnotatedVariant)
    (hae : cfg.all_exonic_space = false) (hai : cfg.all_intronic_space = false) :
    ((get_variant_overlaps_spliceregion_ps cfg exons v).score ≠ -1 →
      0 ≤ (get_variant_overlaps_spliceregion_ps cfg exons v).score ∧
      (get_variant_overlaps_spliceregion_ps cfg exons v).score ≤
        max cfg.exonic_min_distance cfg.intronic_min_distance) ∧
    ((get_variant_overlaps_spliceregion_ns cfg exons v).score ≠ -1 →
      0 ≤ (get_variant_overlaps_spliceregion_ns cfg exons v).score ∧
      (get_variant_overlaps_spliceregion_ns cfg exons v).score ≤
        max cfg.exonic_min_distance cfg.intronic_min_distance) := by
  constructor
  · intro hne
    by_cases hg : (nth exons 0).start > v.stop ∨ (nth exons (exons.length - 1)).stop < v.stop
    · exact absurd (show (get_variant_overlaps_spliceregion_ps cfg exons v).score = -1 by
        unfold get_variant_overlaps_spliceregion_ps; dsimp only; rw [if_pos hg]) hne
    · have hres : get_variant_overlaps_spliceregion_ps cfg exons v =
          gvo_ps_go cfg exons exons.length
            { v with score := -1, annot := "non_splice_region" } 0 := by
        unfold get_variant_overlaps_spliceregion_ps; dsimp only; rw [if_neg hg]
      rw [hres] at hne ⊢
      rcases gvo_ps_go_score_bound cfg exons hae hai exons.length 0
          { v with score := -1, annot := "non_splice_region" } with heq | hb
      · rw [heq] at hne; exact absurd rfl hne
      · exact hb
  · intro hne
    by_cases hg : (nth exons (exons.length - 1)).start > v.stop ∨ (nth exons 0).stop < v.stop
    · exact absurd (show (get_variant_overlaps_spliceregion_ns cfg exons v).score = -1 by
        unfold get_variant_overlaps_spliceregion_ns; dsimp only; rw [if_pos hg]) hne
    · have hres : get_variant_overlaps_spliceregion_ns cfg exons v =
          gvo_ns_go cfg exons exons.length
            { v with score := -1, annot := "non_splice_region" } 0 := by
        unfold get_variant_overlaps_spliceregion_ns; dsimp only; rw [if_neg hg]
      rw [hres] at hne ⊢
      rcases gvo_ns_go_score_bound cfg exons hae hai exons.length 0
          { v with score := -1, annot := "non_splice_region" } with heq | hb
      · rw [heq] at hne; exact absurd rfl hne
      · exact hb

theorem C5_witness :
    defaultConfig.all_exonic_space = false ∧ defaultConfig.all_intronic_space = false ∧
    (0 ≤ (get_variant_overlaps_spliceregion_ps defaultConfig
        [⟨100, 200, "+"⟩, ⟨300, 400, "+"⟩] (mkAnnotatedVariant "chr1" 198)).score ∧
     (get_variant_overlaps_spliceregion_ps defaultConfig
        [⟨100, 200, "+"⟩, ⟨300, 400, "+"⟩] (mkAnnotatedVariant "chr1" 198)).score ≤
       max defaultConfig.exonic_min_distance defaultConfig.intronic_min_distance) :=
  ⟨rfl, rfl,
   (C5_score_bound defaultConfig [⟨100, 200, "+"⟩, ⟨300, 400, "+"⟩]
     (mkAnnotatedVariant "chr1" 198) rfl rfl).1 (by decide)⟩

/-- C6: gene deduplication and parallel lists: when every candidate
transcript of the traversal belongs to gene `g` and every one of them is
processed and classified splice-relevant, the aggregated gene list holds
`g` exactly once (it is exactly the string `g`), while the transcript,
distance and annotation lists hold one entry per transcript, parallel to
one another and in encounter order (each is the comma-join of the
per-transcript values in traversal order). -/
theorem C6_gene_dedup (cfg : Config) (g : String) (v0 : AnnotatedVariant)
    (ts : List Transcript) (hne : ts ≠ []) (hgood : ∀ t ∈ ts, goodT cfg g v0 t) :
    ∃ res : AnnotatedVariant,
      annotate_record_with_transcripts cfg ts v0 = .ok res ∧
      res.overlapping_genes = g ∧
      res.overlapping_transcripts = joinComma (ts.map Transcript.id) ∧
      res.overlapping_distances =
        joinComma (ts.map (fun t => toString (classifyT cfg v0 t).score)) ∧
      res.annot = joinComma (ts.map (fun t => (classifyT cfg v0 t).annot)) := by
  cases ts with
  | nil => exact absurd rfl hne
  | cons t rest =>
    obtain ⟨hgene, hid, hne', hnskip, hstrand, hrel⟩ := hgood t (List.mem_cons_self t rest)
    obtain ⟨r0, hr0⟩ := gvos_ok_of_strand cfg t.exons v0 hstrand
    have hct : classifyT cfg v0 t = r0 := by unfold classifyT; rw [hr0]
    have hrel0 : r0.annot ≠ "non_splice_region" := by rw [← hct]; exact hrel
    have hone : annotate_one cfg (init_state v0) t = .ok
        { overlapping_genes := t.gene,
          overlapping_transcripts := t.id,
          overlapping_distances := toString r0.score,
          annots := r0.annot,
          unique_genes := [t.gene],
          variant := r0 } := by
      unfold annotate_one init_state
      rw [if_neg (show ¬(t.exons.length = 0) from fun h0 =>
            hne' (List.length_eq_zero.mp h0)),
          if_neg hnskip]
      dsimp only
      rw [hr0]
      dsimp only
      rw [if_pos hrel0,
          if_neg (show ¬(("NA" : String) ≠ "NA") from fun h => h rfl),
          if_neg (List.not_mem_nil t.gene)]
    obtain ⟨st', hloop, h1, h2, h3, h4⟩ :=
      dedup_loop cfg g v0 rest
        { overlapping_genes := t.gene,
          overlapping_transcripts := t.id,
          overlapping_distances := toString r0.score,
          annots := r0.annot,
          unique_genes := [t.gene],
          variant := r0 }
        [t.id] [toString (classifyT cfg v0 t).score] [(classifyT cfg v0 t).annot]
        (fun u hu => hgood u (List.mem_cons_of_mem t hu))
        (by dsimp only; exact gvos_ok_stop cfg t.exons hr0)
        (by dsimp only; exact hid)
        (by simp) (by simp) (by simp)
        (by dsimp only; exact hgene)
        (by dsimp only; rw [hgene]; exact List.mem_singleton.mpr rfl)
        rfl
        (by dsimp only; rw [hct]; exact rfl)
        (by dsimp only; rw [hct]; exact rfl)
    have hloop2 : annotate_loop cfg (t :: rest) (init_state v0) = .ok st' := by
      simp only [annotate_loop]
      rw [hone]
      exact hloop
    refine ⟨{ st'.variant with
              annot := st'.annots,
              overlapping_genes := st'.overlapping_genes,
              overlapping_transcripts := st'.overlapping_transcripts,
              overlapping_distances := st'.overlapping_distances }, ?_, ?_, ?_, ?_, ?_⟩
    · unfold annotate_record_with_transcripts
      rw [hloop2]
    · exact h1
    · exact h2
    · exact h3
    · exact h4

theorem C6_witness :
    (([⟨"T1", "G1", [⟨100, 200, "+"⟩, ⟨300, 400, "+"⟩]⟩,
       ⟨"T2", "G1", [⟨100, 200, "+"⟩, ⟨300, 400, "+"⟩]⟩] : List Transcript) ≠ [] ∧
     ∀ t ∈ ([⟨"T1", "G1", [⟨100, 200, "+"⟩, ⟨300, 400, "+"⟩]⟩,
             ⟨"T2", "G1", [⟨100, 200, "+"⟩, ⟨300, 400, "+"⟩]⟩] : List Transcript),
       goodT defaultConfig "G1" (mkAnnotatedVariant "chr1" 198) t) ∧
    ∃ res : AnnotatedVariant,
      annotate_record_with_transcripts defaultConfig
        [⟨"T1", "G1", [⟨100, 200, "+"⟩, ⟨300, 400, "+"⟩]⟩,
         ⟨"T2", "G1", [⟨100, 200, "+"⟩, ⟨300, 400, "+"⟩]⟩]
        (mkAnnotatedVariant "chr1" 198) = .ok res ∧
      res.overlapping_genes = "G1" ∧
      res.overlapping_transcripts = joinComma
        (([⟨"T1", "G1", [⟨100, 200, "+"⟩, ⟨300, 400, "+"⟩]⟩,
           ⟨"T2", "G1", [⟨100, 200, "+"⟩, ⟨300, 400, "+"⟩]⟩] : List Transcript).map
          Transcript.id) ∧
      res.overlapping_distances = joinComma
        (([⟨"T1", "G1", [⟨100, 200, "+"⟩, ⟨300, 400, "+"⟩]⟩,
           ⟨"T2", "G1", [⟨100, 200, "+"⟩, ⟨300, 400, "+"⟩]⟩] : List Transcript).map
          (fun t => toString (classifyT defaultConfig (mkAnnotatedVariant "chr1" 198) t).score)) ∧
      res.annot = joinComma
        (([⟨"T1", "G1", [⟨100, 200, "+"⟩, ⟨300, 400, "+"⟩]⟩,
           ⟨"T2", "G1", [⟨100, 200, "+"⟩, ⟨300, 400, "+"⟩]⟩] : List Transcript).map
          (fun t => (classifyT defaultConfig (mkAnnotatedVariant "chr1" 198) t).annot)) :=
  ⟨⟨by decide, by decide⟩,
   C6_gene_dedup defaultConfig "G1" (mkAnnotatedVariant "chr1" 198)
     [⟨"T1", "G1", [⟨100, 200, "+"⟩, ⟨300, 400, "+"⟩]⟩,
      ⟨"T2", "G1", [⟨100, 200, "+"⟩, ⟨300, 400, "+"⟩]⟩]
     (by decide) (by decide)⟩

/-- C7: the classifier dispatch raises the fatal UnknownStrand error if
and only if the transcript's strand is neither `+` nor `-` (and every
error it raises is of that form); the aggregator step raises the fatal
MissingExons error if and only if the exon list of the candidate
transcript is empty; and an error raised anywhere in the traversal aborts
the whole traversal — it is neither ignored nor recovered from. -/
theorem C7_error_conditions :
    (∀ (cfg : Config) (exons : List BED) (v : AnnotatedVariant),
      get_variant_overlaps_spliceregion cfg exons v =
        .error (.UnknownStrand (nth exons 0).strand) ↔
      ((nth exons 0).strand ≠ "+" ∧ (nth exons 0).strand ≠ "-")) ∧
    (∀ (cfg : Config) (exons : List BED) (v : AnnotatedVariant) (e : AnnotError),
      get_variant_overlaps_spliceregion cfg exons v = .error e →
      e = .UnknownStrand (nth exons 0).strand) ∧
    (∀ (cfg : Config) (st : AggState) (t : Transcript),
      annotate_one cfg st t = .error (.MissingExons t.id) ↔ t.exons = []) ∧
    (∀ (cfg : Config) (ts1 ts2 : List Transcript) (st : AggState) (e : AnnotError),
      annotate_loop cfg ts1 st = .error e →
      annotate_loop cfg (ts1 ++ ts2) st = .error e) :=
  ⟨gvos_unknown_iff, gvos_error_unknown, annotate_one_missing_iff,
   annotate_loop_error_append⟩

theorem C7_witness :
    annotate_loop defaultConfig
      ([⟨"T0", "G0", []⟩] ++ [⟨"T1", "G1", [⟨100, 200, "+"⟩, ⟨300, 400, "+"⟩]⟩])
      (init_state (mkAnnotatedVariant "chr1" 100)) = .error (.MissingExons "T0") :=
  C7_error_conditions.2.2.2 defaultConfig [⟨"T0", "G0", []⟩]
    [⟨"T1", "G1", [⟨100, 200, "+"⟩, ⟨300, 400, "+"⟩]⟩]
    (init_state (mkAnnotatedVariant "chr1" 100)) (.MissingExons "T0") (by rfl)

/-- C8: the cis-effect limit calculator only ever widens the window: for
either strand procedure and any index, the new `cis_effect_start` is at
most the prior value and the new `cis_effect_end` is at least the prior
value (likewise through the strand dispatch); and at the first or last
exon the missing neighbor is replaced by that exon itself, so the window
edge moves exactly to the minimum (resp. maximum) of the prior value and
exon `i`'s own boundary — no extension beyond it. -/
theorem C8_cis_widens (exons : List BED) (v : AnnotatedVariant) (i : Nat) :
    ((set_variant_cis_effect_limits_ps exons v i).cis_effect_start ≤ v.cis_effect_start ∧
     v.cis_effect_end ≤ (set_variant_cis_effect_limits_ps exons v i).cis_effect_end) ∧
    ((set_variant_cis_effect_limits_ns exons v i).cis_effect_start ≤ v.cis_effect_start ∧
     v.cis_effect_end ≤ (set_variant_cis_effect_limits_ns exons v i).cis_effect_end) ∧
    ((set_variant_cis_effect_limits exons v i).cis_effect_start ≤ v.cis_effect_start ∧
     v.cis_effect_end ≤ (set_variant_cis_effect_limits exons v i).cis_effect_end) ∧
    (set_variant_cis_effect_limits_ps exons v 0).cis_effect_start =
      min v.cis_effect_start (nth exons 0).start ∧
    (set_variant_cis_effect_limits_ps exons v (exons.length - 1)).cis_effect_end =
      max v.cis_effect_end (nth exons (exons.length - 1)).stop ∧
    (set_variant_cis_effect_limits_ns exons v 0).cis_effect_end =
      max v.cis_effect_end (nth exons 0).stop ∧
    (set_variant_cis_effect_limits_ns exons v (exons.length - 1)).cis_effect_start =
      min v.cis_effect_start (nth exons (exons.length - 1)).start := by
  refine ⟨⟨(set_cis_ps_fields exons v i).2.2.2.1, (set_cis_ps_fields exons v i).2.2.2.2⟩,
          ⟨(set_cis_ns_fields exons v i).2.2.2.1, (set_cis_ns_fields exons v i).2.2.2.2⟩,
          ⟨(set_cis_fields exons v i).2.2.2.1, (set_cis_fields exons v i).2.2.2.2⟩,
          ?_, ?_, ?_, ?_⟩
  · unfold set_variant_cis_effect_limits_ps
    dsimp only
    split_ifs <;> (try simp_all) <;> omega
  · unfold set_variant_cis_effect_limits_ps
    dsimp only
    split_ifs <;> (try simp_all) <;> omega
  · unfold set_variant_cis_effect_limits_ns
    dsimp only
    split_ifs <;> (try simp_all) <;> omega
  · unfold set_variant_cis_effect_limits_ns
    dsimp only
    split_ifs <;> (try simp_all) <;> omega

/-- C9: single-exon-transcript skip policy: with
`skip_single_exon_transcripts` enabled, a candidate transcript with
exactly one exon is skipped before classification — the aggregator step
leaves its whole state untouched — and removing such a transcript from the
traversal leaves the aggregated record unchanged, even when the variant
geometrically overlaps that exon. -/
theorem C9_skip_single_exon (cfg : Config) (st : AggState) (t : Transcript)
    (hskip : cfg.skip_single_exon_genes = true) (h1 : t.exons.length = 1) :
    annotate_one cfg st t = .ok st ∧
    ∀ (pre post : List Transcript) (v0 : AnnotatedVariant),
      annotate_record_with_transcripts cfg (pre ++ t :: post) v0 =
        annotate_record_with_transcripts cfg (pre ++ post) v0 := by
  refine ⟨annotate_one_skip cfg st t hskip h1, fun pre post v0 => ?_⟩
  unfold annotate_record_with_transcripts
  rw [annotate_loop_insert_skip cfg t hskip h1 pre post (init_state v0)]

theorem C9_witness :
    annotate_one defaultConfig (init_state (mkAnnotatedVariant "chr1" 149))
        ⟨"T1", "G1", [⟨100, 200, "+"⟩]⟩ =
      .ok (init_state (mkAnnotatedVariant "chr1" 149)) ∧
    annotate_record_with_transcripts defaultConfig
        ([] ++ ⟨"T1", "G1", [⟨100, 200, "+"⟩]⟩ :: []) (mkAnnotatedVariant "chr1" 149) =
      annotate_record_with_transcripts defaultConfig ([] ++ [])
        (mkAnnotatedVariant "chr1" 149) :=
  ⟨(C9_skip_single_exon defaultConfig (init_state (mkAnnotatedVariant "chr1" 149))
      ⟨"T1", "G1", [⟨100, 200, "+"⟩]⟩ rfl (by decide)).1,
   (C9_skip_single_exon defaultConfig (init_state (mkAnnotatedVariant "chr1" 149))
      ⟨"T1", "G1", [⟨100, 200, "+"⟩]⟩ rfl (by decide)).2 [] []
     (mkAnnotatedVariant "chr1" 149)⟩

/-- C10: one AnnotatedVariant record is threaded through every candidate
transcript of a record's annotation: the classifier overwrites the score
and label at entry, so its result is independent of whatever score and
label the previous transcript left behind; but the cis-effect window is
never reset, so each classifier call can only widen it, and across any
successful traversal the final window contains the window after every
intermediate transcript — `cis_effect_start` is non-increasing and
`cis_effect_end` non-decreasing along the fold. -/
theorem C10_shared_variant :
    (∀ (cfg : Config) (exons : List BED) (v : AnnotatedVariant) (s : Int) (a : String),
      get_variant_overlaps_spliceregion cfg exons { v with score := s, annot := a } =
        get_variant_overlaps_spliceregion cfg exons v) ∧
    (∀ (cfg : Config) (exons : List BED) (v r : AnnotatedVariant),
      get_variant_overlaps_spliceregion cfg exons v = .ok r →
      r.cis_effect_start ≤ v.cis_effect_start ∧ v.cis_effect_end ≤ r.cis_effect_end) ∧
    (∀ (cfg : Config) (ts : List Transcript) (st st' : AggState),
      annotate_loop cfg ts st = .ok st' →
      st'.variant.cis_effect_start ≤ st.variant.cis_effect_start ∧
      st.variant.cis_effect_end ≤ st'.variant.cis_effect_end) :=
  ⟨fun _ _ _ _ _ => rfl,
   fun cfg exons v r h => gvos_ok_cis_widen cfg exons h,
   fun cfg ts st st' h =>
     ⟨(annotate_loop_cis_mono cfg ts st st' h).1, (annotate_loop_cis_mono cfg ts st st' h).2.1⟩⟩

theorem C10_witness :
    ((classifyT defaultConfig (mkAnnotatedVariant "chr1" 198)
        ⟨"T1", "G1", [⟨100, 200, "+"⟩, ⟨300, 400, "+"⟩]⟩).cis_effect_start ≤
      (mkAnnotatedVariant "chr1" 198).cis_effect_start ∧
     (mkAnnotatedVariant "chr1" 198).cis_effect_end ≤
      (classifyT defaultConfig (mkAnnotatedVariant "chr1" 198)
        ⟨"T1", "G1", [⟨100, 200, "+"⟩, ⟨300, 400, "+"⟩]⟩).cis_effect_end) ∧
    ((init_state (mkAnnotatedVariant "chr1" 100)).variant.cis_effect_start ≤
      (init_state (mkAnnotatedVariant "chr1" 100)).variant.cis_effect_start ∧
     (init_state (mkAnnotatedVariant "chr1" 100)).variant.cis_effect_end ≤
      (init_state (mkAnnotatedVariant "chr1" 100)).variant.cis_effect_end) :=
  ⟨C10_shared_variant.2.1 defaultConfig [⟨100, 200, "+"⟩, ⟨300, 400, "+"⟩]
     (mkAnnotatedVariant "chr1" 198) _ (by rfl),
   C10_shared_variant.2.2 defaultConfig [] (init_state (mkAnnotatedVariant "chr1" 100))
     (init_state (mkAnnotatedVariant "chr1" 100)) (by rfl)⟩

end Regtools
